import Mathlib

/-
Verification development for the Weltrada product-research pipeline
(src/app.py).  The Python source is shallowly embedded: Python strings
are Lean Strings (worked on as lists of characters), Python dicts with
per-brand key sets become a structure with Option-valued fields (none
models an absent key), network and image-decoding effects are supplied
by explicit oracle values, a raised Python exception that escapes a
function is modelled as Except.error, and the files a run writes are
collected as an explicit list of (path, data) pairs, a path being the
list of its components.
-/

-- ------------------------------------------------------------------
-- Character-level models of the Python str operations used by app.py.
-- All character classifications are written through Char.toNat so the
-- proofs below can reason purely arithmetically.
-- ------------------------------------------------------------------

/-- Model of Python str.isalnum restricted to the character set this
development evaluates it on: exact on ASCII (digits 0-9, letters A-Z
and a-z) and on U+0130 (LATIN CAPITAL LETTER I WITH DOT ABOVE, a
letter, hence alphanumeric in Python) and on U+0307 (COMBINING DOT
ABOVE, category Mn, not alphanumeric in Python).  Other non-ASCII
characters are out of the modelled scope and mapped to false. -/
def pyIsAlnum (c : Char) : Bool :=
  decide ((48 ≤ c.toNat ∧ c.toNat ≤ 57) ∨ (65 ≤ c.toNat ∧ c.toNat ≤ 90) ∨
    (97 ≤ c.toNat ∧ c.toNat ≤ 122) ∨ c.toNat = 304)

/-- Model of Python str.lower applied to a one-character string, which
may return more than one character.  Exact on ASCII and on U+0130
(toNat 304), the single character relevant here whose Unicode
lowercasing expands: per Unicode SpecialCasing, U+0130 lowercases to
U+0069 followed by U+0307.  Other non-ASCII characters are out of the
modelled scope and left unchanged. -/
def pyLowerChar (c : Char) : List Char :=
  if c.toNat = 304 then ['i', '\u0307']
  else if 65 ≤ c.toNat ∧ c.toNat ≤ 90 then [Char.ofNat (c.toNat + 32)] else [c]

/-- Model of Python str.upper on one character, exact on ASCII; other
characters are out of the modelled scope and left unchanged. -/
def pyUpperChar (c : Char) : Char :=
  if 97 ≤ c.toNat ∧ c.toNat ≤ 122 then Char.ofNat (c.toNat - 32) else c

/-- Python str.lower over a whole string. -/
def pyLower (s : String) : String :=
  String.mk ((s.toList.map pyLowerChar).flatten)

/-- Python str.upper over a whole string. -/
def pyUpper (s : String) : String :=
  String.mk (s.toList.map pyUpperChar)

/-- Whitespace as stripped by Python str.strip with no arguments
(space, tab, linefeed, vertical tab, formfeed, carriage return). -/
def pySpace (c : Char) : Bool :=
  decide (c.toNat = 32 ∨ c.toNat = 9 ∨ c.toNat = 10 ∨ c.toNat = 11 ∨
    c.toNat = 12 ∨ c.toNat = 13)

/-- Python str.strip with no arguments. -/
def pyStrip (s : String) : String :=
  String.mk (((s.toList.dropWhile pySpace).reverse.dropWhile pySpace).reverse)

/-- Needle-starts-hay test on character lists. -/
def chStartsWith : List Char → List Char → Bool
  | [], _ => true
  | _ :: _, [] => false
  | a :: as, b :: bs => a = b && chStartsWith as bs

/-- Containment of a needle in a hay, on character lists. -/
def chContains : List Char → List Char → Bool
  | [], needle => needle.isEmpty
  | b :: bs, needle => chStartsWith needle (b :: bs) || chContains bs needle

/-- Python s.startswith(pre). -/
def pyStartsWith (s pre : String) : Bool :=
  chStartsWith pre.toList s.toList

/-- Python s.endswith(suf). -/
def pyEndsWith (s suf : String) : Bool :=
  chStartsWith suf.toList.reverse s.toList.reverse

/-- Python (needle in hay) on strings. -/
def pyIn (needle hay : String) : Bool :=
  chContains hay.toList needle.toList

-- ------------------------------------------------------------------
-- clean_filename (app.py lines 57-65):
--   return "".flatten(c.lower() for c in s.replace(" ", "-")
--                  if c.isalnum() or c in ["-", "_"])
-- ------------------------------------------------------------------

/-- The character substitution performed by s.replace(" ", "-"):
a space (toNat 32) becomes a hyphen, all else is unchanged. -/
def replSpace (c : Char) : Char :=
  if c.toNat = 32 then '-' else c

/-- The filter of the clean_filename comprehension:
c.isalnum() or c in ["-", "_"] (hyphen is toNat 45, underscore 95). -/
def keepChar (c : Char) : Bool :=
  pyIsAlnum c || decide (c.toNat = 45) || decide (c.toNat = 95)

/-- clean_filename on a character list: replace spaces by hyphens,
keep only alphanumerics, hyphen and underscore, lowercase each kept
character, and join. -/
def cleanList (l : List Char) : List Char :=
  (((l.map replSpace).filter keepChar).map pyLowerChar).flatten

/-- clean_filename from app.py. -/
def clean_filename (s : String) : String :=
  String.mk (cleanList s.toList)

/-- Characters the spec allows in a slug: lower-case ASCII
alphanumerics, hyphen, underscore. -/
def slugOK (c : Char) : Bool :=
  decide ((48 ≤ c.toNat ∧ c.toNat ≤ 57) ∨ (97 ≤ c.toNat ∧ c.toNat ≤ 122) ∨
    c.toNat = 45 ∨ c.toNat = 95)

/-- ASCII test used to delimit the exactly-modelled domain. -/
def isAscii (c : Char) : Bool :=
  decide (c.toNat < 128)

-- ------------------------------------------------------------------
-- Data model of a fetched-and-parsed product page.  A Page stands for
-- the BeautifulSoup view of one successfully fetched document, reduced
-- to the queries the parsers make of it.
-- ------------------------------------------------------------------

/-- The soup of one fetched page, as queried by the parsers: the
stripped text of the first h1 (none when absent), the stripped texts of
the elements matched by the breadcrumb selector the importing parser
uses, the src attributes of all img tags in document order (none when
the attribute is absent), the href values of all anchor tags carrying
one, in document order, and the stripped text of the first span with
itemprop gtin13. -/
structure Page where
  h1 : Option String
  crumbs : List String
  imgSrcs : List (Option String)
  anchors : List String
  gtin : Option String
deriving DecidableEq

/-- One input spreadsheet row: the brand and product_code cells. -/
structure RawRow where
  brand : String
  product_code : String
deriving DecidableEq

/-- The uploaded spreadsheet: whether pd.read_excel can parse it,
whether the two required columns are present, and its rows. -/
structure UploadedFile where
  parses : Bool
  hasBrandCol : Bool
  hasCodeCol : Bool
  rows : List RawRow
deriving DecidableEq

/-- One row of the EN output table (columns Product Code, Brand,
Product Name, Category of app.py lines 642-647). -/
structure EnRow where
  productCode : String
  brand : String
  productName : String
  category : String
deriving DecidableEq

/-- One row of the TR output table (columns of app.py lines 650-655). -/
structure TrRow where
  urunKodu : String
  marka : String
  urunAdi : String
  kategori : String
deriving DecidableEq

/-- An HTTP response as consumed by the download helpers: a status
code and a raw body. -/
structure HttpResp where
  status_code : Nat
  content : List Nat
deriving DecidableEq

/-- A decoded PIL image: its colour mode and pixel payload.  Only
success or failure of decoding and the identity of the payload matter
to the claims; pixel semantics are abstract. -/
structure PILImage where
  mode : String
  pixels : List Nat
deriving DecidableEq

deriving instance DecidableEq for Except

/-- Oracle for one download_image_to_webp call: the outcome of
requests.get (error models a raised transport exception) and the
outcome of Image.open on the body (error models a decode exception). -/
structure ImgFetch where
  resp : Except Unit HttpResp
  decoded : Except Unit PILImage
deriving DecidableEq

/-- Contents of a file the run writes: a breadcrumb text file, a
converted webp image, raw downloaded pdf bytes, the audit copy of the
upload, or one of the two output tables. -/
inductive FileData where
  | text (s : String)
  | webp (img : PILImage)
  | pdf (bytes : List Nat)
  | uploadedCopy (u : UploadedFile)
  | excelEn (rows : List EnRow)
  | excelTr (rows : List TrRow)
deriving DecidableEq

/-- The dict a brand parser returns.  Keys brand, code and images are
present in every parser; each remaining field is an Option whose none
models the key being absent from that parser's dict. -/
structure ProductRecord where
  brand : String
  code : String
  name_en : Option String := none
  name_tr : Option String := none
  name_de : Option String := none
  breadcrumbs_en : Option String := none
  breadcrumbs_tr : Option String := none
  breadcrumbs_de : Option String := none
  category_en : Option String := none
  category_tr : Option String := none
  category_de : Option String := none
  datasheet_en : Option String := none
  datasheet_tr : Option String := none
  ean : Option String := none
  images : List String := []
deriving DecidableEq

-- ------------------------------------------------------------------
-- Asset fetchers (app.py lines 68-112).  The Python functions write
-- the file as a side effect and return a bool; the model returns the
-- bool together with the data written (none when nothing is written).
-- ------------------------------------------------------------------

/-- download_image_to_webp: on a transport exception, a non-200
status, or a decode exception it returns false and writes nothing;
otherwise it converts the image to RGB, saves it as webp and returns
true. -/
def download_image_to_webp (f : ImgFetch) : Bool × Option FileData :=
  match f.resp with
  | .error _ => (false, none)
  | .ok r =>
    if r.status_code ≠ 200 then (false, none)
    else
      match f.decoded with
      | .error _ => (false, none)
      | .ok img => (true, some (FileData.webp { img with mode := "RGB" }))

/-- download_file: on a transport exception or non-200 status it
returns false and writes nothing; otherwise it writes the raw body and
returns true. -/
def download_file (r? : Except Unit HttpResp) : Bool × Option FileData :=
  match r? with
  | .error _ => (false, none)
  | .ok r =>
    if r.status_code ≠ 200 then (false, none)
    else (true, some (FileData.pdf r.content))

-- ------------------------------------------------------------------
-- Brand parsers (app.py lines 119-568).  Each language block is
-- guarded by try/except; the only failing operation inside a block is
-- the page fetch-and-parse, modelled as an Except-valued oracle, so an
-- exception leaves every field of that block at its prior value.
-- ------------------------------------------------------------------

/-- Second-to-last element of a breadcrumb list (crumbs[-2]),
evaluated only under the length guard. -/
def secondToLast (l : List String) : String :=
  l.getD (l.length - 2) ""

/-- Root-relative link rewrite shared by the datasheet extractors:
prefix the origin when the link starts with a slash. -/
def absLink (origin link : String) : String :=
  if pyStartsWith link "/" then origin ++ link else link

/-- The body of the Schneider image loop for a single img tag
(app.py lines 162-172): skip a missing or empty src, keep srcs
containing /product/, rewrite a protocol-relative src by prefixing the
scheme, then a root-relative one by prefixing the origin, and append
if not already collected. -/
def schneiderImgStep (images : List String) (src? : Option String) : List String :=
  match src? with
  | none => images
  | some src =>
    if src = "" then images
    else if pyIn "/product/" src then
      let src1 := if pyStartsWith src "//" then "https:" ++ src else src
      let src2 := if pyStartsWith src1 "/" then "https://www.se.com" ++ src1 else src1
      if src2 ∈ images then images else images ++ [src2]
    else images

/-- The body of the image loop of every other parser for a single img
tag: skip a missing or empty src, keep srcs passing the brand filter,
rewrite a src starting with a slash by prefixing the origin, and
append if not already collected. -/
def genericImgStep (origin : String) (filt : String → Bool)
    (images : List String) (src? : Option String) : List String :=
  match src? with
  | none => images
  | some src =>
    if src = "" then images
    else if filt src then
      let src1 := if pyStartsWith src "/" then origin ++ src else src
      if src1 ∈ images then images else images ++ [src1]
    else images

/-- parse_schneider (app.py lines 119-219). -/
def parse_schneider (page_en page_tr : Except Unit Page) (code : String) :
    ProductRecord :=
  let data : ProductRecord :=
    { brand := "Schneider Electric", code := code, name_en := some "",
      name_tr := some "", breadcrumbs_en := some "", breadcrumbs_tr := some "",
      category_en := some "", category_tr := some "", datasheet_en := some "",
      datasheet_tr := some "", ean := some "", images := [] }
  let data :=
    match page_en with
    | .error _ => data
    | .ok p =>
      let data := match p.h1 with
        | some t => { data with name_en := some t }
        | none => data
      let data :=
        if p.crumbs.isEmpty then data
        else
          let data := { data with
            breadcrumbs_en := some (String.intercalate " > " p.crumbs) }
          if 2 ≤ p.crumbs.length then
            { data with category_en := some (secondToLast p.crumbs) }
          else data
      let imgs := p.imgSrcs.foldl schneiderImgStep data.images
      let data := { data with images := imgs }
      let data := match p.anchors.find? (fun h => pyEndsWith h ".pdf") with
        | some link =>
          { data with datasheet_en := some (absLink "https://www.se.com" link) }
        | none => data
      match p.gtin with
      | some g => { data with ean := some g }
      | none => data
  match page_tr with
  | .error _ => data
  | .ok p =>
    let data := match p.h1 with
      | some t => { data with name_tr := some t }
      | none => data
    let data :=
      if p.crumbs.isEmpty then data
      else
        let data := { data with
          breadcrumbs_tr := some (String.intercalate " > " p.crumbs) }
        if 2 ≤ p.crumbs.length then
          { data with category_tr := some (secondToLast p.crumbs) }
        else data
    match p.anchors.find? (fun h => pyEndsWith h ".pdf") with
    | some link =>
      { data with datasheet_tr := some (absLink "https://www.se.com" link) }
    | none => data

/-- parse_abb (app.py lines 223-312).  Its pdf predicate tests
containment of .pdf in the href, not a suffix. -/
def parse_abb (page_en page_tr : Except Unit Page) (code : String) :
    ProductRecord :=
  let data : ProductRecord :=
    { brand := "ABB Group", code := code, name_en := some "",
      name_tr := some "", breadcrumbs_en := some "", breadcrumbs_tr := some "",
      category_en := some "", category_tr := some "", datasheet_en := some "",
      datasheet_tr := some "", images := [], ean := some "" }
  let data :=
    match page_en with
    | .error _ => data
    | .ok p =>
      let data := match p.h1 with
        | some t => { data with name_en := some t }
        | none => data
      let data :=
        if p.crumbs.isEmpty then data
        else
          let data := { data with
            breadcrumbs_en := some (String.intercalate " > " p.crumbs) }
          if 2 ≤ p.crumbs.length then
            { data with category_en := some (secondToLast p.crumbs) }
          else data
      let imgs := p.imgSrcs.foldl
        (genericImgStep "https://new.abb.com"
          (fun src => pyIn (pyLower code) (pyLower src))) data.images
      let data := { data with images := imgs }
      match p.anchors.find? (fun h => pyIn ".pdf" h) with
      | some link =>
        { data with datasheet_en := some (absLink "https://new.abb.com" link) }
      | none => data
  match page_tr with
  | .error _ => data
  | .ok p =>
    let data := match p.h1 with
      | some t => { data with name_tr := some t }
      | none => data
    let data :=
      if p.crumbs.isEmpty then data
      else
        let data := { data with
          breadcrumbs_tr := some (String.intercalate " > " p.crumbs) }
        if 2 ≤ p.crumbs.length then
          { data with category_tr := some (secondToLast p.crumbs) }
        else data
    match p.anchors.find? (fun h => pyIn ".pdf" h) with
    | some link =>
      { data with datasheet_tr := some (absLink "https://new.abb.com" link) }
    | none => data

/-- parse_allen (app.py lines 316-369): a single fetch, with no TR and
no de keys and no ean key. -/
def parse_allen (page : Except Unit Page) (code : String) : ProductRecord :=
  let data : ProductRecord :=
    { brand := "Allen Bradley (Rockwell Automation)", code := code,
      name_en := some "", breadcrumbs_en := some "", category_en := some "",
      datasheet_en := some "", images := [] }
  match page with
  | .error _ => data
  | .ok p =>
    let data := match p.h1 with
      | some t => { data with name_en := some t }
      | none => data
    let data :=
      if p.crumbs.isEmpty then data
      else
        let data := { data with
          breadcrumbs_en := some (String.intercalate " > " p.crumbs) }
        if 2 ≤ p.crumbs.length then
          { data with category_en := some (secondToLast p.crumbs) }
        else data
    let imgs := p.imgSrcs.foldl
      (genericImgStep "https://www.rockwellautomation.com"
        (fun src => pyIn code src)) data.images
    let data := { data with images := imgs }
    match p.anchors.find? (fun h => pyEndsWith h ".pdf") with
    | some link =>
      { data with datasheet_en := some (absLink "https://www.rockwellautomation.com" link) }
    | none => data

/-- parse_eaton (app.py lines 373-417): a single fetch extracting only
the name and the images; no breadcrumb and no datasheet extraction. -/
def parse_eaton (page : Except Unit Page) (code : String) : ProductRecord :=
  let data : ProductRecord :=
    { brand := "Eaton", code := code, name_en := some "", name_tr := some "",
      breadcrumbs_en := some "", breadcrumbs_tr := some "",
      category_en := some "", category_tr := some "", datasheet_en := some "",
      datasheet_tr := some "", images := [] }
  match page with
  | .error _ => data
  | .ok p =>
    let data := match p.h1 with
      | some t => { data with name_en := some t }
      | none => data
    let imgs := p.imgSrcs.foldl
      (genericImgStep "https://www.eaton.com"
        (fun src => pyIn (pyLower code) (pyLower src))) data.images
    { data with images := imgs }

/-- parse_legrand (app.py lines 421-470): fixed sample URL, de-keyed
name and breadcrumbs, image filter on the fixed literal 030191. -/
def parse_legrand (page : Except Unit Page) (code : String) : ProductRecord :=
  let data : ProductRecord :=
    { brand := "Legrand", code := code, name_de := some "",
      breadcrumbs_de := some "", category_de := some "",
      datasheet_en := some "", datasheet_tr := some "", images := [] }
  match page with
  | .error _ => data
  | .ok p =>
    let data := match p.h1 with
      | some t => { data with name_de := some t }
      | none => data
    let data :=
      if p.crumbs.isEmpty then data
      else
        let data := { data with
          breadcrumbs_de := some (String.intercalate " > " p.crumbs) }
        if 2 ≤ p.crumbs.length then
          { data with category_de := some (secondToLast p.crumbs) }
        else data
    let imgs := p.imgSrcs.foldl
      (genericImgStep "https://www.legrand.at"
        (fun src => pyIn "030191" src)) data.images
    { data with images := imgs }

/-- parse_wago (app.py lines 474-517): a single fetch extracting only
the name and the images. -/
def parse_wago (page : Except Unit Page) (code : String) : ProductRecord :=
  let data : ProductRecord :=
    { brand := "Wago", code := code, name_en := some "", name_tr := some "",
      breadcrumbs_en := some "", breadcrumbs_tr := some "",
      category_en := some "", category_tr := some "", datasheet_en := some "",
      datasheet_tr := some "", images := [] }
  match page with
  | .error _ => data
  | .ok p =>
    let data := match p.h1 with
      | some t => { data with name_en := some t }
      | none => data
    let imgs := p.imgSrcs.foldl
      (genericImgStep "https://www.wago.com"
        (fun src => pyIn code src)) data.images
    { data with images := imgs }

/-- parse_siemens (app.py lines 521-568): a single fetch, name,
breadcrumbs and images; no name_tr key and no datasheet extraction. -/
def parse_siemens (page : Except Unit Page) (code : String) : ProductRecord :=
  let data : ProductRecord :=
    { brand := "Siemens", code := code, name_en := some "",
      breadcrumbs_en := some "", category_en := some "",
      datasheet_en := some "", datasheet_tr := some "", images := [] }
  match page with
  | .error _ => data
  | .ok p =>
    let data := match p.h1 with
      | some t => { data with name_en := some t }
      | none => data
    let data :=
      if p.crumbs.isEmpty then data
      else
        let data := { data with
          breadcrumbs_en := some (String.intercalate " > " p.crumbs) }
        if 2 ≤ p.crumbs.length then
          { data with category_en := some (secondToLast p.crumbs) }
        else data
    let imgs := p.imgSrcs.foldl
      (genericImgStep "https://mall.industry.siemens.com"
        (fun src => pyIn (pyLower code) (pyLower src))) data.images
    { data with images := imgs }

-- ------------------------------------------------------------------
-- Brand router and run orchestrator (app.py lines 574-726).
-- ------------------------------------------------------------------

/-- The fixed set of extraction strategies the router can select. -/
inductive Strategy where
  | schneider
  | abb
  | allen
  | eaton
  | legrand
  | wago
  | siemens
deriving DecidableEq

/-- The keyword dispatch of scrape_by_brand (app.py lines 574-594):
lower-case and strip the brand, then test keyword containment in the
written order, returning the first match. -/
def resolveStrategy (brand : String) : Option Strategy :=
  let b := pyStrip (pyLower brand)
  if pyIn "schneider" b then some .schneider
  else if pyIn "abb" b then some .abb
  else if pyIn "allen" b || pyIn "rockwell" b then some .allen
  else if pyIn "eaton" b then some .eaton
  else if pyIn "legrand" b then some .legrand
  else if pyIn "wago" b then some .wago
  else if pyIn "siemens" b then some .siemens
  else none

/-- Network behaviour available to one row: the outcome of the first
and (for Schneider and ABB) second page fetch of its parser, and the
per-URL outcomes of image and datasheet downloads. -/
structure RowOracle where
  page1 : Except Unit Page
  page2 : Except Unit Page
  img : String → ImgFetch
  ds : String → Except Unit HttpResp

/-- scrape_by_brand: dispatch to the parser of the resolved strategy,
none when no keyword matches (the Python function returns None). -/
def scrape_by_brand (o : RowOracle) (brand code : String) :
    Option ProductRecord :=
  match resolveStrategy brand with
  | some .schneider => some (parse_schneider o.page1 o.page2 code)
  | some .abb => some (parse_abb o.page1 o.page2 code)
  | some .allen => some (parse_allen o.page1 code)
  | some .eaton => some (parse_eaton o.page1 code)
  | some .legrand => some (parse_legrand o.page1 code)
  | some .wago => some (parse_wago o.page1 code)
  | some .siemens => some (parse_siemens o.page1 code)
  | none => none

/-- Zero-padded counter rendering of a format of three digits. -/
def pad3 (n : Nat) : String :=
  if n < 10 then "00" ++ toString n
  else if n < 100 then "0" ++ toString n
  else toString n

/-- Image filename template of app.py line 673. -/
def imgFileName (brand code : String) (n : Nat) : String :=
  clean_filename brand ++ "-" ++ pyLower code ++ "-" ++ pad3 n ++ ".webp"

/-- The per-product image loop (app.py lines 671-676): the filename is
built from the current counter, the download is attempted, and the
counter advances only when the download succeeded; only successful
downloads produce a file. -/
def imageLoop (img : String → ImgFetch) (root brand code : String) :
    List String → Nat → List (List String × FileData)
  | [], _ => []
  | url :: rest, count =>
    match download_image_to_webp (img url) with
    | (true, some dat) =>
      ([root, "Images", code, imgFileName brand code count], dat) ::
        imageLoop img root brand code rest (count + 1)
    | _ => imageLoop img root brand code rest count

/-- EN output-table row built from a record (app.py lines 642-647):
dict.get falls back only when the key is absent. -/
def enRowOf (brand code : String) (d : ProductRecord) : EnRow :=
  { productCode := code, brand := brand,
    productName := d.name_en.getD (d.name_de.getD ""),
    category := d.category_en.getD (d.category_de.getD "") }

/-- TR output-table row built from a record (app.py lines 650-655). -/
def trRowOf (brand code : String) (d : ProductRecord) : TrRow :=
  { urunKodu := code, marka := brand,
    urunAdi := d.name_tr.getD (d.name_en.getD (d.name_de.getD "")),
    kategori := d.category_tr.getD (d.category_en.getD (d.category_de.getD "")) }

/-- bc_en of app.py line 658. -/
def breadcrumbEn (d : ProductRecord) : String :=
  d.breadcrumbs_en.getD (d.breadcrumbs_de.getD "")

/-- bc_tr of app.py line 659. -/
def breadcrumbTr (d : ProductRecord) : String :=
  d.breadcrumbs_tr.getD (breadcrumbEn d)

/-- Datasheet downloads of one row (app.py lines 678-686): attempted
only when the key holds a truthy value; the file exists only when
download_file succeeded. -/
def datasheetFiles (ds : String → Except Unit HttpResp) (root code : String)
    (d : ProductRecord) : List (List String × FileData) :=
  let dsEn := d.datasheet_en.getD ""
  let enPart :=
    if dsEn = "" then []
    else
      match download_file (ds dsEn) with
      | (true, some dat) => [([root, "Datasheets", code ++ "-datasheet-en.pdf"], dat)]
      | _ => []
  let dsTr := d.datasheet_tr.getD ""
  let trPart :=
    if dsTr = "" then []
    else
      match download_file (ds dsTr) with
      | (true, some dat) => [([root, "Datasheets", code ++ "-datasheet-tr.pdf"], dat)]
      | _ => []
  enPart ++ trPart

/-- Everything one processed row contributes: its two table rows and
the files it writes, in write order. -/
structure RowResult where
  en : EnRow
  tr : TrRow
  files : List (List String × FileData)
deriving DecidableEq

/-- The body of the per-row loop of process_products (app.py lines
631-686) for one row: trim the cells, uppercase the code, scrape, and
on success build the table rows, the two breadcrumb files, the image
files and the datasheet files.  none models the continue taken when
scrape_by_brand returned None. -/
def processRow (o : RowOracle) (root : String) (raw : RawRow) :
    Option RowResult :=
  let brand := pyStrip raw.brand
  let code := pyUpper (pyStrip raw.product_code)
  match scrape_by_brand o brand code with
  | none => none
  | some d =>
    let f1 := ([root, "Info", "en", "Breadcrumbs", code ++ "-breadcrumbs.txt"],
      FileData.text (breadcrumbEn d))
    let f2 := ([root, "Info", "tr", "Sayfa-Yolları", code ++ "-sayfa-yolu.txt"],
      FileData.text (breadcrumbTr d))
    let imgs := imageLoop o.img root brand code d.images 1
    some { en := enRowOf brand code d, tr := trRowOf brand code d,
           files := f1 :: f2 :: (imgs ++ datasheetFiles o.ds root code d) }

/-- Write one file into the disk model: replace the entry at an
existing path, append otherwise. -/
def fsWrite (fs : List (List String × FileData)) (p : List String)
    (dat : FileData) : List (List String × FileData) :=
  if fs.any (fun e => e.1 = p) then
    fs.map (fun e => if e.1 = p then (p, dat) else e)
  else fs ++ [(p, dat)]

/-- Accumulated state of the row loop: the two table accumulators and
the files on disk. -/
structure LoopState where
  en_rows : List EnRow
  tr_rows : List TrRow
  fs : List (List String × FileData)
deriving DecidableEq

/-- One iteration of the row loop over an indexed row. -/
def rowStep (oracle : Nat → RowOracle) (root : String) (st : LoopState)
    (p : Nat × RawRow) : LoopState :=
  match processRow (oracle p.1) root p.2 with
  | none => st
  | some r =>
    { en_rows := st.en_rows ++ [r.en], tr_rows := st.tr_rows ++ [r.tr],
      fs := r.files.foldl (fun fs f => fsWrite fs f.1 f.2) st.fs }

/-- The relative view os.walk plus os.path.relpath produce when
archiving (app.py lines 710-715): every file whose path lies under the
root folder, re-rooted at it. -/
def relUnder (root : String) (fs : List (List String × FileData)) :
    List (List String × FileData) :=
  fs.filterMap (fun e =>
    match e.1 with
    | r :: rest => if r = root then some (rest, e.2) else none
    | [] => none)

/-- The JSON body process_products returns on success (app.py lines
722-726). -/
structure Response where
  status : String
  zip_file : String
  download_url : String
deriving DecidableEq

/-- Observable outcome of one successful run: the files on disk under
the base directory apart from the archive, the archive path and its
entries, the two table accumulators, and the response body. -/
structure RunOutcome where
  files : List (List String × FileData)
  zipPath : List String
  zipEntries : List (List String × FileData)
  en_rows : List EnRow
  tr_rows : List TrRow
  response : Response
deriving DecidableEq

/-- process_products (app.py lines 600-726).  Except.error models a
Python exception escaping the endpoint unhandled: pd.read_excel has no
try/except around it, and a missing required column raises KeyError at
the first row access, which is likewise uncaught.  The audit copy, the
row loop, the conditional table writes, and the archive built from the
relative walk of the run root follow the source line by line; the
archive is stored beside the run root, not inside it, so it never
contains itself. -/
def process_products (upload : UploadedFile) (oracle : Nat → RowOracle)
    (time_str : String) : Except Unit RunOutcome :=
  let root_folder := "Research-" ++ time_str
  let fs0 : List (List String × FileData) :=
    [([root_folder, "uploaded.xlsx"], FileData.uploadedCopy upload)]
  if upload.parses = false then Except.error ()
  else if upload.rows.isEmpty = false ∧
      (upload.hasBrandCol && upload.hasCodeCol) = false then Except.error ()
  else
    let st := (upload.rows.enum).foldl (rowStep oracle root_folder)
      { en_rows := [], tr_rows := [], fs := fs0 }
    let fs1 :=
      if st.en_rows.isEmpty then st.fs
      else fsWrite st.fs [root_folder, "Info", "en", "products-info.xlsx"]
        (FileData.excelEn st.en_rows)
    let fs2 :=
      if st.tr_rows.isEmpty then fs1
      else fsWrite fs1 [root_folder, "Info", "tr", "urun-detaylari.xlsx"]
        (FileData.excelTr st.tr_rows)
    let zip_name := root_folder ++ ".zip"
    let resp : Response := { status := "success", zip_file := zip_name, download_url := "https://weltrada-automation.onrender.com/static/" ++ zip_name }
    Except.ok
      { files := fs2, zipPath := [zip_name],
        zipEntries := relUnder root_folder fs2,
        en_rows := st.en_rows, tr_rows := st.tr_rows, response := resp }

-- ------------------------------------------------------------------
-- Projection helpers over run outcomes and row results.
-- ------------------------------------------------------------------

/-- True when the run returned instead of raising. -/
def isOkRun : Except Unit RunOutcome → Bool
  | .ok _ => true
  | .error _ => false

/-- EN table accumulator of a run, empty when the run raised. -/
def enRowsOf : Except Unit RunOutcome → List EnRow
  | .ok o => o.en_rows
  | .error _ => []

/-- TR table accumulator of a run, empty when the run raised. -/
def trRowsOf : Except Unit RunOutcome → List TrRow
  | .ok o => o.tr_rows
  | .error _ => []

/-- Files of a run, empty when the run raised. -/
def filesOf : Except Unit RunOutcome → List (List String × FileData)
  | .ok o => o.files
  | .error _ => []

/-- Archive entries of a run, empty when the run raised. -/
def zipEntriesOf : Except Unit RunOutcome → List (List String × FileData)
  | .ok o => o.zipEntries
  | .error _ => []

/-- Archive path of a run, empty when the run raised. -/
def zipPathOf : Except Unit RunOutcome → List String
  | .ok o => o.zipPath
  | .error _ => []

/-- Response status of a run, empty when the run raised. -/
def statusOf : Except Unit RunOutcome → String
  | .ok o => o.response.status
  | .error _ => ""

/-- zip_file field of the response, empty when the run raised. -/
def zipFileOf : Except Unit RunOutcome → String
  | .ok o => o.response.zip_file
  | .error _ => ""

/-- Files contributed by one row, empty for a skipped row. -/
def rowFilesOf : Option RowResult → List (List String × FileData)
  | some r => r.files
  | none => []

/-- Predicate of the paths one processed row can write: its two
breadcrumb files, its image files, and its two datasheet files, all
determined by the run root, the trimmed brand and the upper-cased
code, never by the position of the row. -/
def rowPathOK (root brand code : String) (p : List String) : Prop :=
  p = [root, "Info", "en", "Breadcrumbs", code ++ "-breadcrumbs.txt"] ∨
  p = [root, "Info", "tr", "Sayfa-Yolları", code ++ "-sayfa-yolu.txt"] ∨
  (∃ n, p = [root, "Images", code, imgFileName brand code n]) ∨
  p = [root, "Datasheets", code ++ "-datasheet-en.pdf"] ∨
  p = [root, "Datasheets", code ++ "-datasheet-tr.pdf"]

-- ------------------------------------------------------------------
-- Concrete fixtures used by the closed counterexample and witness
-- statements below.
-- ------------------------------------------------------------------

/-- An oracle on which every network operation raises. -/
def oracleFail : RowOracle :=
  { page1 := Except.error (), page2 := Except.error (),
    img := fun _ => { resp := Except.error (), decoded := Except.error () },
    ds := fun _ => Except.error () }

/-- A page carrying only a product name. -/
def pageName : Page :=
  { h1 := some "Widget", crumbs := [], imgSrcs := [], anchors := [],
    gtin := none }

/-- A page whose only img src is relative (no leading slash). -/
def pageRelImg : Page :=
  { h1 := none, crumbs := [], imgSrcs := [some "x1.png"], anchors := [],
    gtin := none }

/-- A page whose only img src is protocol-relative. -/
def pageProtoRel : Page :=
  { h1 := none, crumbs := [], imgSrcs := [some "//cdn.example/ab.png"],
    anchors := [], gtin := none }

/-- A successful image fetch-and-decode outcome. -/
def imgFetchOK : ImgFetch :=
  { resp := Except.ok { status_code := 200, content := [1] },
    decoded := Except.ok { mode := "P", pixels := [7] } }

/-- An image fetch answered with HTTP 404. -/
def imgFetch404 : ImgFetch :=
  { resp := Except.ok { status_code := 404, content := [] },
    decoded := Except.error () }

/-- An oracle whose page fetches yield pageName for the first fetch
and fail for the second, with all downloads succeeding. -/
def oracleName : RowOracle :=
  { page1 := Except.ok pageName, page2 := Except.error (),
    img := fun _ => imgFetchOK, ds := fun _ => Except.error () }

/-- An oracle serving pageRelImg on the first fetch, with all image
downloads succeeding. -/
def oracleRelImg : RowOracle :=
  { page1 := Except.ok pageRelImg, page2 := Except.error (),
    img := fun _ => imgFetchOK, ds := fun _ => Except.error () }

/-- An image oracle that fails exactly on the second of three URLs. -/
def imgOracle231 : String → ImgFetch :=
  fun u => if u = "u2" then imgFetch404 else imgFetchOK

/-- Upload with one Schneider row whose product code is empty. -/
def uploadEmptyCode : UploadedFile :=
  { parses := true, hasBrandCol := true, hasCodeCol := true,
    rows := [{ brand := "schneider", product_code := "" }] }

/-- Upload that pandas cannot parse. -/
def uploadBad : UploadedFile :=
  { parses := false, hasBrandCol := true, hasCodeCol := true, rows := [] }

/-- Parseable upload missing the product_code column, with one row. -/
def uploadNoCodeCol : UploadedFile :=
  { parses := true, hasBrandCol := true, hasCodeCol := false,
    rows := [{ brand := "schneider", product_code := "A" }] }

/-- Upload with a single row naming no recognized brand. -/
def uploadUnknown : UploadedFile :=
  { parses := true, hasBrandCol := true, hasCodeCol := true,
    rows := [{ brand := "unknownbrand", product_code := "A" }] }

/-- Upload with one Schneider row with code K. -/
def uploadSchneiderK : UploadedFile :=
  { parses := true, hasBrandCol := true, hasCodeCol := true,
    rows := [{ brand := "schneider", product_code := "K" }] }

/-- Upload with two rows sharing the product code X1 but spelling the
brand differently, both resolving to the ABB strategy. -/
def uploadTwoX1 : UploadedFile :=
  { parses := true, hasBrandCol := true, hasCodeCol := true,
    rows := [{ brand := "ABB", product_code := "X1" },
             { brand := "abb group", product_code := "X1" }] }

/-- A record whose name_tr key is present and nonempty. -/
def recNameTr : ProductRecord :=
  { brand := "B", code := "C", name_tr := some "W" }

-- ------------------------------------------------------------------
-- Slugification lemmas (claim C7).
-- ------------------------------------------------------------------

lemma slug_fix (c : Char) (h : slugOK c = true) :
    replSpace c = c ∧ keepChar c = true ∧ pyLowerChar c = [c] := by
  simp only [slugOK, decide_eq_true_eq] at h
  refine ⟨?_, ?_, ?_⟩
  · unfold replSpace; rw [if_neg]; omega
  · simp only [keepChar, pyIsAlnum, Bool.or_eq_true, decide_eq_true_eq]; omega
  · unfold pyLowerChar; rw [if_neg, if_neg]; omega; omega

lemma cleanList_fixed (l : List Char) (h : ∀ c ∈ l, slugOK c = true) :
    cleanList l = l := by
  induction l with
  | nil => rfl
  | cons c t ih =>
    have hc := slug_fix c (h c (by simp))
    have ht := ih (fun x hx => h x (by simp [hx]))
    simp only [cleanList, List.map_cons, hc.1, List.filter_cons, hc.2.1, if_pos,
      hc.2.2] at *
    simpa [cleanList] using ht

lemma lower_slug (c : Char) (hA : isAscii c = true) (hK : keepChar c = true) :
    ∀ d ∈ pyLowerChar c, slugOK d = true := by
  simp only [isAscii, decide_eq_true_eq] at hA
  simp only [keepChar, pyIsAlnum, Bool.or_eq_true, decide_eq_true_eq] at hK
  intro d hd
  unfold pyLowerChar at hd
  rw [if_neg (by omega)] at hd
  by_cases hu : 65 ≤ c.toNat ∧ c.toNat ≤ 90
  · rw [if_pos hu] at hd
    simp only [List.mem_singleton] at hd
    subst hd
    obtain ⟨n, hn⟩ : ∃ n, c.toNat = n := ⟨_, rfl⟩
    rw [hn] at hu ⊢
    obtain ⟨h1, h2⟩ := hu
    interval_cases n <;> decide
  · rw [if_neg hu] at hd
    simp only [List.mem_singleton] at hd
    subst hd
    simp only [slugOK, decide_eq_true_eq]
    omega

lemma ascii_repl (c : Char) (h : isAscii c = true) :
    isAscii (replSpace c) = true := by
  unfold replSpace; split <;> simp_all [isAscii]

lemma cleanList_slug (l : List Char) (h : ∀ c ∈ l, isAscii c = true) :
    ∀ d ∈ cleanList l, slugOK d = true := by
  intro d hd
  simp only [cleanList, List.mem_flatten, List.mem_map] at hd
  obtain ⟨m, ⟨c, hc, rfl⟩, hdm⟩ := hd
  rw [List.mem_filter] at hc
  obtain ⟨hcm, hkeep⟩ := hc
  rw [List.mem_map] at hcm
  obtain ⟨c0, hc0, rfl⟩ := hcm
  exact lower_slug _ (ascii_repl c0 (h c0 hc0)) hkeep d hdm

/-- C7, corrected.  Restricted to ASCII strings, clean_filename is
idempotent and its output consists only of lower-case ASCII
alphanumerics, hyphen and underscore (it is total on all strings by
construction).  Over full Unicode the claim fails, because U+0130
lower-cases to the two characters i and U+0307 and the latter is not
alphanumeric; see the counterexample. -/
theorem c7_clean_filename_ascii (s : String)
    (h : ∀ c ∈ s.toList, isAscii c = true) :
    clean_filename (clean_filename s) = clean_filename s ∧
    ∀ c ∈ (clean_filename s).toList, slugOK c = true := by
  have hs := cleanList_slug s.toList h
  have htl : (clean_filename s).toList = cleanList s.toList := rfl
  constructor
  · show String.mk (cleanList (clean_filename s).toList) = clean_filename s
    rw [htl, cleanList_fixed _ hs]; rfl
  · rw [htl]; exact hs

/-- Witness for C7 at a concrete ASCII brand string. -/
theorem c7_clean_filename_ascii_witness :
    (∀ c ∈ "Schneider Electric".toList, isAscii c = true) ∧
    (clean_filename (clean_filename "Schneider Electric") =
        clean_filename "Schneider Electric" ∧
      ∀ c ∈ (clean_filename "Schneider Electric").toList, slugOK c = true) :=
  ⟨by decide, c7_clean_filename_ascii "Schneider Electric" (by decide)⟩

/-- Counterexample to C7 as stated: on the Turkish letter U+0130 the
function is not idempotent and emits U+0307, which is not a lower-case
alphanumeric, hyphen or underscore. -/
theorem c7_counterexample :
    clean_filename (clean_filename "İ") ≠ clean_filename "İ" ∧
      (clean_filename "İ").toList.all slugOK = false := by decide

lemma download_image_shape (f : ImgFetch) :
    download_image_to_webp f = (false, none) ∨
      ∃ d, download_image_to_webp f = (true, some d) := by
  unfold download_image_to_webp
  rcases f.resp with e | r <;> dsimp only
  · exact Or.inl rfl
  · by_cases h : r.status_code = 200
    · rcases f.decoded with e | i <;> simp [h]
    · simp [h]

lemma download_image_true_iff (f : ImgFetch) :
    (download_image_to_webp f).1 = true ↔
      ∃ r i, f.resp = Except.ok r ∧ r.status_code = 200 ∧
        f.decoded = Except.ok i := by
  unfold download_image_to_webp
  rcases f.resp with e | r <;> dsimp only <;> simp
  by_cases h : r.status_code = 200 <;>
    rcases f.decoded with e | i <;> simp [h]

lemma download_file_true_iff (g : Except Unit HttpResp) :
    (download_file g).1 = true ↔
      ∃ r, g = Except.ok r ∧ r.status_code = 200 := by
  unfold download_file
  rcases g with e | r <;> dsimp only <;> simp
  by_cases h : r.status_code = 200 <;> simp [h]

lemma fsWrite_self_mem (fs : List (List String × FileData)) (p : List String)
    (d : FileData) : (p, d) ∈ fsWrite fs p d := by
  unfold fsWrite
  split
  · next hany =>
    rw [List.any_eq_true] at hany
    obtain ⟨e, he, hep⟩ := hany
    rw [List.mem_map]
    refine ⟨e, he, ?_⟩
    simp only [decide_eq_true_eq] at hep
    rw [if_pos hep]
  · simp

lemma fsWrite_keys_sub (fs : List (List String × FileData)) (p : List String)
    (d : FileData) (q : List String)
    (h : q ∈ (fsWrite fs p d).map (fun e => e.1)) :
    q ∈ fs.map (fun e => e.1) ∨ q = p := by
  unfold fsWrite at h
  split at h
  · rw [List.map_map, List.mem_map] at h
    obtain ⟨e, he, heq⟩ := h
    simp only [Function.comp_apply] at heq
    by_cases hq : e.1 = p
    · rw [if_pos hq] at heq; right; rw [← heq]
    · rw [if_neg hq] at heq
      left; rw [List.mem_map]; exact ⟨e, he, heq⟩
  · rw [List.map_append, List.mem_append] at h
    rcases h with h | h
    · left; exact h
    · right; simpa using h

lemma fsWrite_keys_mono (fs : List (List String × FileData)) (p : List String)
    (d : FileData) (q : List String) (h : q ∈ fs.map (fun e => e.1)) :
    q ∈ (fsWrite fs p d).map (fun e => e.1) := by
  unfold fsWrite
  split
  · rw [List.mem_map] at h
    obtain ⟨e, he, heq⟩ := h
    rw [List.map_map, List.mem_map]
    refine ⟨e, he, ?_⟩
    simp only [Function.comp_apply]
    by_cases hq : e.1 = p
    · rw [if_pos hq]; dsimp only; rw [← heq, hq]
    · rw [if_neg hq]; exact heq
  · rw [List.map_append, List.mem_append]; left; exact h

lemma fsWrite_keys_overwrite (fs : List (List String × FileData))
    (p : List String) (d : FileData) (h : p ∈ fs.map (fun e => e.1)) :
    (fsWrite fs p d).map (fun e => e.1) = fs.map (fun e => e.1) := by
  unfold fsWrite
  rw [if_pos]
  · rw [List.map_map, List.map_inj_left]
    intro e _
    by_cases hq : e.1 = p
    · simp [hq]
    · simp [hq]
  · rw [List.any_eq_true]
    rw [List.mem_map] at h
    obtain ⟨e, he, heq⟩ := h
    exact ⟨e, he, by simp [heq]⟩

lemma relUnder_mem (root : String) (fs : List (List String × FileData))
    (q : List String) (d : FileData) :
    (q, d) ∈ relUnder root fs ↔ (root :: q, d) ∈ fs := by
  unfold relUnder
  rw [List.mem_filterMap]
  constructor
  · rintro ⟨⟨p, dd⟩, he, heq⟩
    rcases p with _ | ⟨r, rest⟩
    · simp at heq
    · dsimp only at heq
      split at heq
      · next hr =>
        rw [Option.some_inj, Prod.mk.injEq] at heq
        obtain ⟨h1, h2⟩ := heq
        subst hr h1 h2
        exact he
      · simp at heq
  · intro h
    exact ⟨(root :: q, d), h, by simp⟩

lemma download_file_shape (g : Except Unit HttpResp) :
    download_file g = (false, none) ∨
      ∃ d, download_file g = (true, some d) := by
  unfold download_file
  rcases g with e | r <;> dsimp only
  · exact Or.inl rfl
  · by_cases h : r.status_code = 200 <;> simp [h]

lemma rowStep_none (oracle : Nat → RowOracle) (root : String) (st : LoopState)
    (p : Nat × RawRow) (hp : processRow (oracle p.1) root p.2 = none) :
    rowStep oracle root st p = st := by
  unfold rowStep; rw [hp]

lemma rowStep_some (oracle : Nat → RowOracle) (root : String) (st : LoopState)
    (p : Nat × RawRow) (r : RowResult)
    (hp : processRow (oracle p.1) root p.2 = some r) :
    rowStep oracle root st p =
      { en_rows := st.en_rows ++ [r.en], tr_rows := st.tr_rows ++ [r.tr],
        fs := r.files.foldl (fun fs f => fsWrite fs f.1 f.2) st.fs } := by
  unfold rowStep; rw [hp]

lemma loop_tables (oracle : Nat → RowOracle) (root : String) :
    ∀ (l : List (Nat × RawRow)) (st : LoopState),
      (l.foldl (rowStep oracle root) st).en_rows =
        st.en_rows ++ l.filterMap
          (fun p => (processRow (oracle p.1) root p.2).map (fun r => r.en)) ∧
      (l.foldl (rowStep oracle root) st).tr_rows =
        st.tr_rows ++ l.filterMap
          (fun p => (processRow (oracle p.1) root p.2).map (fun r => r.tr)) := by
  intro l
  induction l with
  | nil => intro st; simp
  | cons p t ih =>
    intro st
    rw [List.foldl_cons, List.filterMap_cons, List.filterMap_cons]
    cases hp : processRow (oracle p.1) root p.2 with
    | none =>
      rw [rowStep_none oracle root st p hp]
      simpa using ih st
    | some r =>
      rw [rowStep_some oracle root st p r hp]
      obtain ⟨ih1, ih2⟩ := ih
        { en_rows := st.en_rows ++ [r.en], tr_rows := st.tr_rows ++ [r.tr],
          fs := r.files.foldl (fun fs f => fsWrite fs f.1 f.2) st.fs }
      constructor
      · rw [ih1]; simp
      · rw [ih2]; simp

lemma processRow_none_iff (o : RowOracle) (root : String) (raw : RawRow) :
    processRow o root raw = none ↔
      resolveStrategy (pyStrip raw.brand) = none := by
  unfold processRow scrape_by_brand
  dsimp only
  cases h : resolveStrategy (pyStrip raw.brand) with
  | none => simp
  | some s => cases s <;> simp

lemma foldWrite_keys_sub :
    ∀ (files fs : List (List String × FileData)) (q : List String),
      q ∈ ((files.foldl (fun a f => fsWrite a f.1 f.2) fs).map (fun e => e.1)) →
        q ∈ fs.map (fun e => e.1) ∨ ∃ f ∈ files, f.1 = q := by
  intro files
  induction files with
  | nil => intro fs q h; exact Or.inl h
  | cons f t ih =>
    intro fs q h
    rw [List.foldl_cons] at h
    rcases ih _ q h with h | ⟨g, hg, hgq⟩
    · rcases fsWrite_keys_sub fs f.1 f.2 q h with h | h
      · exact Or.inl h
      · exact Or.inr ⟨f, List.mem_cons_self .., h.symm⟩
    · exact Or.inr ⟨g, List.mem_cons_of_mem _ hg, hgq⟩

lemma foldWrite_keys_mono :
    ∀ (files fs : List (List String × FileData)) (q : List String),
      q ∈ fs.map (fun e => e.1) →
        q ∈ ((files.foldl (fun a f => fsWrite a f.1 f.2) fs).map (fun e => e.1)) := by
  intro files
  induction files with
  | nil => intro fs q h; exact h
  | cons f t ih =>
    intro fs q h
    rw [List.foldl_cons]
    exact ih _ q (fsWrite_keys_mono fs f.1 f.2 q h)

lemma loop_keys_sub (oracle : Nat → RowOracle) (root : String) :
    ∀ (l : List (Nat × RawRow)) (st : LoopState) (q : List String),
      q ∈ ((l.foldl (rowStep oracle root) st).fs).map (fun e => e.1) →
        q ∈ st.fs.map (fun e => e.1) ∨
          ∃ p ∈ l, ∃ e ∈ rowFilesOf (processRow (oracle p.1) root p.2),
            e.1 = q := by
  intro l
  induction l with
  | nil => intro st q h; exact Or.inl h
  | cons p t ih =>
    intro st q h
    rw [List.foldl_cons] at h
    cases hp : processRow (oracle p.1) root p.2 with
    | none =>
      rw [rowStep_none oracle root st p hp] at h
      rcases ih st q h with h | ⟨pp, hpp, hee⟩
      · exact Or.inl h
      · exact Or.inr ⟨pp, List.mem_cons_of_mem _ hpp, hee⟩
    | some r =>
      rw [rowStep_some oracle root st p r hp] at h
      rcases ih _ q h with h | ⟨pp, hpp, hee⟩
      · dsimp only at h
        rcases foldWrite_keys_sub r.files st.fs q h with h | ⟨f, hf, hfq⟩
        · exact Or.inl h
        · exact Or.inr ⟨p, List.mem_cons_self .., ⟨f, by rw [hp]; exact hf, hfq⟩⟩
      · exact Or.inr ⟨pp, List.mem_cons_of_mem _ hpp, hee⟩

lemma process_guard2 (u : UploadedFile)
    (h2 : u.rows.isEmpty = true ∨ (u.hasBrandCol && u.hasCodeCol) = true) :
    ¬(u.rows.isEmpty = false ∧ (u.hasBrandCol && u.hasCodeCol) = false) := by
  rcases h2 with h | h <;> simp [h]

lemma process_en_rows_eq (u : UploadedFile) (o : Nat → RowOracle) (t : String)
    (h1 : u.parses = true)
    (h2 : u.rows.isEmpty = true ∨ (u.hasBrandCol && u.hasCodeCol) = true) :
    enRowsOf (process_products u o t) =
      ((u.rows.enum).foldl (rowStep o ("Research-" ++ t))
        { en_rows := [], tr_rows := [],
          fs := [(["Research-" ++ t, "uploaded.xlsx"],
            FileData.uploadedCopy u)] }).en_rows := by
  unfold process_products
  rw [if_neg (by simp [h1]), if_neg (process_guard2 u h2)]
  rfl

lemma process_tr_rows_eq (u : UploadedFile) (o : Nat → RowOracle) (t : String)
    (h1 : u.parses = true)
    (h2 : u.rows.isEmpty = true ∨ (u.hasBrandCol && u.hasCodeCol) = true) :
    trRowsOf (process_products u o t) =
      ((u.rows.enum).foldl (rowStep o ("Research-" ++ t))
        { en_rows := [], tr_rows := [],
          fs := [(["Research-" ++ t, "uploaded.xlsx"],
            FileData.uploadedCopy u)] }).tr_rows := by
  unfold process_products
  rw [if_neg (by simp [h1]), if_neg (process_guard2 u h2)]
  rfl

lemma process_ok (u : UploadedFile) (o : Nat → RowOracle) (t : String)
    (h1 : u.parses = true)
    (h2 : u.rows.isEmpty = true ∨ (u.hasBrandCol && u.hasCodeCol) = true) :
    isOkRun (process_products u o t) = true := by
  unfold process_products
  rw [if_neg (by simp [h1]), if_neg (process_guard2 u h2)]
  rfl

lemma process_status_ok (u : UploadedFile) (o : Nat → RowOracle) (t : String)
    (h : isOkRun (process_products u o t) = true) :
    statusOf (process_products u o t) = "success" := by
  unfold process_products at h ⊢
  by_cases hg1 : u.parses = false
  · rw [if_pos hg1] at h; simp [isOkRun] at h
  · rw [if_neg hg1] at h ⊢
    by_cases hg2 : u.rows.isEmpty = false ∧ (u.hasBrandCol && u.hasCodeCol) = false
    · rw [if_pos hg2] at h; simp [isOkRun] at h
    · rw [if_neg hg2] at h ⊢
      rfl

lemma process_zip_path (u : UploadedFile) (o : Nat → RowOracle) (t : String)
    (h1 : u.parses = true)
    (h2 : u.rows.isEmpty = true ∨ (u.hasBrandCol && u.hasCodeCol) = true) :
    zipPathOf (process_products u o t) = ["Research-" ++ t ++ ".zip"] ∧
      zipFileOf (process_products u o t) = "Research-" ++ t ++ ".zip" := by
  unfold process_products
  rw [if_neg (by simp [h1]), if_neg (process_guard2 u h2)]
  exact ⟨rfl, rfl⟩

lemma process_zip_entries (u : UploadedFile) (o : Nat → RowOracle) (t : String)
    (h1 : u.parses = true)
    (h2 : u.rows.isEmpty = true ∨ (u.hasBrandCol && u.hasCodeCol) = true) :
    zipEntriesOf (process_products u o t) =
      relUnder ("Research-" ++ t) (filesOf (process_products u o t)) := by
  unfold process_products
  rw [if_neg (by simp [h1]), if_neg (process_guard2 u h2)]
  rfl

lemma process_files_eq (u : UploadedFile) (o : Nat → RowOracle) (t : String)
    (h1 : u.parses = true)
    (h2 : u.rows.isEmpty = true ∨ (u.hasBrandCol && u.hasCodeCol) = true) :
    filesOf (process_products u o t) =
      (let st := (u.rows.enum).foldl (rowStep o ("Research-" ++ t))
        { en_rows := [], tr_rows := [],
          fs := [(["Research-" ++ t, "uploaded.xlsx"],
            FileData.uploadedCopy u)] }
       let fs1 := if st.en_rows.isEmpty then st.fs
         else fsWrite st.fs ["Research-" ++ t, "Info", "en", "products-info.xlsx"]
           (FileData.excelEn st.en_rows)
       if st.tr_rows.isEmpty then fs1
       else fsWrite fs1 ["Research-" ++ t, "Info", "tr", "urun-detaylari.xlsx"]
         (FileData.excelTr st.tr_rows)) := by
  unfold process_products
  rw [if_neg (by simp [h1]), if_neg (process_guard2 u h2)]
  rfl

lemma imageLoop_paths (img : String → ImgFetch) (root brand code : String) :
    ∀ (urls : List String) (count : Nat),
      ∀ e ∈ imageLoop img root brand code urls count,
        ∃ n, e.1 = [root, "Images", code, imgFileName brand code n] := by
  intro urls
  induction urls with
  | nil => intro count e he; simp [imageLoop] at he
  | cons u rest ih =>
    intro count e he
    unfold imageLoop at he
    rcases download_image_shape (img u) with h | ⟨d, h⟩
    · rw [h] at he
      exact ih _ e he
    · rw [h] at he
      rw [List.mem_cons] at he
      rcases he with he | he
      · exact ⟨count, by rw [he]⟩
      · exact ih _ e he

lemma imageLoop_length (img : String → ImgFetch) (root brand code : String) :
    ∀ (urls : List String) (count : Nat),
      (imageLoop img root brand code urls count).length =
        (urls.filter (fun u => (download_image_to_webp (img u)).1)).length := by
  intro urls
  induction urls with
  | nil => intro count; rfl
  | cons u rest ih =>
    intro count
    unfold imageLoop
    rcases download_image_shape (img u) with h | ⟨d, h⟩
    · rw [h, List.filter_cons_of_neg (by rw [h]; simp)]
      exact ih _
    · rw [h, List.filter_cons_of_pos (by rw [h])]
      dsimp only
      simp only [List.length_cons]
      rw [ih _]

lemma imageLoop_getElem (img : String → ImgFetch) (root brand code : String) :
    ∀ (urls : List String) (count k : Nat),
      k < (imageLoop img root brand code urls count).length →
      ((imageLoop img root brand code urls count).map (fun e => e.1))[k]? =
        some [root, "Images", code, imgFileName brand code (count + k)] := by
  intro urls
  induction urls with
  | nil => intro count k hk; simp [imageLoop] at hk
  | cons u rest ih =>
    intro count k hk
    unfold imageLoop at hk ⊢
    rcases download_image_shape (img u) with h | ⟨d, h⟩
    · rw [h] at hk ⊢
      exact ih count k hk
    · rw [h] at hk ⊢
      dsimp only at hk ⊢
      cases k with
      | zero => simp
      | succ k =>
        rw [List.length_cons] at hk
        rw [show count + (k + 1) = (count + 1) + k from by omega]
        rw [List.map_cons, List.getElem?_cons_succ]
        exact ih (count + 1) k (Nat.lt_of_succ_lt_succ hk)

lemma datasheetFiles_paths (ds : String → Except Unit HttpResp)
    (root code : String) (d : ProductRecord) :
    ∀ e ∈ datasheetFiles ds root code d,
      e.1 = [root, "Datasheets", code ++ "-datasheet-en.pdf"] ∨
        e.1 = [root, "Datasheets", code ++ "-datasheet-tr.pdf"] := by
  intro e he
  unfold datasheetFiles at he
  rw [List.mem_append] at he
  rcases he with he | he
  · left
    split at he
    · simp at he
    · rcases download_file_shape (ds (d.datasheet_en.getD "")) with h | ⟨dd, h⟩
      · rw [h] at he; simp at he
      · rw [h] at he
        rw [List.mem_singleton] at he
        rw [he]
  · right
    split at he
    · simp at he
    · rcases download_file_shape (ds (d.datasheet_tr.getD "")) with h | ⟨dd, h⟩
      · rw [h] at he; simp at he
      · rw [h] at he
        rw [List.mem_singleton] at he
        rw [he]

lemma processRow_paths (o : RowOracle) (root : String) (raw : RawRow) :
    ∀ e ∈ rowFilesOf (processRow o root raw),
      rowPathOK root (pyStrip raw.brand)
        (pyUpper (pyStrip raw.product_code)) e.1 := by
  intro e he
  unfold processRow at he
  dsimp only at he
  cases h : scrape_by_brand o (pyStrip raw.brand)
      (pyUpper (pyStrip raw.product_code)) with
  | none => rw [h] at he; simp [rowFilesOf] at he
  | some d =>
    rw [h] at he
    dsimp only [rowFilesOf] at he
    rw [List.mem_cons] at he
    rcases he with he | he
    · exact Or.inl (by rw [he])
    rw [List.mem_cons] at he
    rcases he with he | he
    · exact Or.inr (Or.inl (by rw [he]))
    rw [List.mem_append] at he
    rcases he with he | he
    · exact Or.inr (Or.inr (Or.inl
        (imageLoop_paths o.img root (pyStrip raw.brand)
          (pyUpper (pyStrip raw.product_code)) d.images 1 e he)))
    · rcases datasheetFiles_paths o.ds root
          (pyUpper (pyStrip raw.product_code)) d e he with h2 | h2
      · exact Or.inr (Or.inr (Or.inr (Or.inl h2)))
      · exact Or.inr (Or.inr (Or.inr (Or.inr h2)))

lemma rowPathOK_ne_tables (root brand code : String) (p : List String)
    (h : rowPathOK root brand code p) :
    p ≠ [root, "Info", "en", "products-info.xlsx"] ∧
      p ≠ [root, "Info", "tr", "urun-detaylari.xlsx"] := by
  rcases h with h | h | ⟨n, h⟩ | h | h <;> subst h <;>
    constructor <;> intro hEq <;> simp at hEq

lemma enum_filterMap_length (f : Nat → RawRow → Option EnRow)
    (g : RawRow → Bool) (hfg : ∀ n r, (f n r).isSome = g r) :
    ∀ (l : List RawRow) (n : Nat),
      ((List.enumFrom n l).filterMap (fun p => f p.1 p.2)).length =
        (l.filter g).length := by
  intro l
  induction l with
  | nil => intro n; rfl
  | cons r t ih =>
    intro n
    rw [List.enumFrom_cons, List.filterMap_cons]
    cases hf : f n r with
    | none =>
      rw [List.filter_cons_of_neg (by rw [← hfg n r, hf]; simp)]
      exact ih (n + 1)
    | some e =>
      rw [List.filter_cons_of_pos (by rw [← hfg n r, hf]; simp)]
      simp only [List.length_cons]
      rw [ih (n + 1)]

lemma genericImgStep_mem (origin : String) (filt : String → Bool)
    (acc : List String) (s? : Option String) (u : String)
    (h : u ∈ genericImgStep origin filt acc s?) :
    u ∈ acc ∨ ∃ s, s? = some s ∧ s ≠ "" ∧ filt s = true ∧
      u = (if pyStartsWith s "/" then origin ++ s else s) := by
  unfold genericImgStep at h
  rcases s? with _ | s
  · exact Or.inl h
  · dsimp only at h
    by_cases he : s = ""
    · rw [if_pos he] at h; exact Or.inl h
    · rw [if_neg he] at h
      by_cases hf : filt s = true
      · rw [if_pos hf] at h
        by_cases hm : (if pyStartsWith s "/" = true then origin ++ s else s) ∈ acc
        · rw [if_pos hm] at h; exact Or.inl h
        · rw [if_neg hm] at h
          rw [List.mem_append, List.mem_singleton] at h
          rcases h with h | h
          · exact Or.inl h
          · exact Or.inr ⟨s, rfl, he, hf, h⟩
      · rw [if_neg hf] at h; exact Or.inl h

lemma genericFold_mem (origin : String) (filt : String → Bool) :
    ∀ (srcs : List (Option String)) (acc : List String) (u : String),
      u ∈ srcs.foldl (genericImgStep origin filt) acc →
        u ∈ acc ∨ ∃ s, (some s) ∈ srcs ∧ s ≠ "" ∧ filt s = true ∧
          u = (if pyStartsWith s "/" then origin ++ s else s) := by
  intro srcs
  induction srcs with
  | nil => intro acc u h; exact Or.inl h
  | cons s? rest ih =>
    intro acc u h
    rw [List.foldl_cons] at h
    rcases ih _ u h with h2 | ⟨s, hs, hne, hf, hu⟩
    · rcases genericImgStep_mem origin filt acc s? u h2 with h3 | ⟨s, hss, hne, hf, hu⟩
      · exact Or.inl h3
      · exact Or.inr ⟨s, by rw [hss]; exact List.mem_cons_self .., hne, hf, hu⟩
    · exact Or.inr ⟨s, List.mem_cons_of_mem _ hs, hne, hf, hu⟩

lemma schneiderImgStep_mem (acc : List String) (s? : Option String) (u : String)
    (h : u ∈ schneiderImgStep acc s?) :
    u ∈ acc ∨ ∃ s, s? = some s ∧ s ≠ "" ∧ pyIn "/product/" s = true ∧
      u = (let s1 := if pyStartsWith s "//" then "https:" ++ s else s
           if pyStartsWith s1 "/" then "https://www.se.com" ++ s1 else s1) := by
  unfold schneiderImgStep at h
  rcases s? with _ | s
  · exact Or.inl h
  · dsimp only at h
    by_cases he : s = ""
    · rw [if_pos he] at h; exact Or.inl h
    · rw [if_neg he] at h
      by_cases hf : pyIn "/product/" s = true
      · rw [if_pos hf] at h
        by_cases hm : (if pyStartsWith
              (if pyStartsWith s "//" = true then "https:" ++ s else s) "/" = true then
            "https://www.se.com" ++
              (if pyStartsWith s "//" = true then "https:" ++ s else s)
          else (if pyStartsWith s "//" = true then "https:" ++ s else s)) ∈ acc
        · rw [if_pos hm] at h; exact Or.inl h
        · rw [if_neg hm] at h
          rw [List.mem_append, List.mem_singleton] at h
          rcases h with h | h
          · exact Or.inl h
          · exact Or.inr ⟨s, rfl, he, hf, h⟩
      · rw [if_neg hf] at h; exact Or.inl h

lemma schneiderFold_mem :
    ∀ (srcs : List (Option String)) (acc : List String) (u : String),
      u ∈ srcs.foldl schneiderImgStep acc →
        u ∈ acc ∨ ∃ s, (some s) ∈ srcs ∧ s ≠ "" ∧
          pyIn "/product/" s = true ∧
          u = (let s1 := if pyStartsWith s "//" then "https:" ++ s else s
               if pyStartsWith s1 "/" then "https://www.se.com" ++ s1 else s1) := by
  intro srcs
  induction srcs with
  | nil => intro acc u h; exact Or.inl h
  | cons s? rest ih =>
    intro acc u h
    rw [List.foldl_cons] at h
    rcases ih _ u h with h2 | ⟨s, hs, hne, hf, hu⟩
    · rcases schneiderImgStep_mem acc s? u h2 with h3 | ⟨s, hss, hne, hf, hu⟩
      · exact Or.inl h3
      · exact Or.inr ⟨s, by rw [hss]; exact List.mem_cons_self .., hne, hf, hu⟩
    · exact Or.inr ⟨s, List.mem_cons_of_mem _ hs, hne, hf, hu⟩

lemma parse_schneider_const (pe pt : Except Unit Page) (code : String) :
    (parse_schneider pe pt code).brand = "Schneider Electric" ∧
      (parse_schneider pe pt code).code = code := by
  unfold parse_schneider
  rcases pe with e | p <;> rcases pt with e2 | p2 <;> dsimp only <;>
    (repeat' split) <;> exact ⟨rfl, rfl⟩

lemma parse_abb_const (pe pt : Except Unit Page) (code : String) :
    (parse_abb pe pt code).brand = "ABB Group" ∧
      (parse_abb pe pt code).code = code := by
  unfold parse_abb
  rcases pe with e | p <;> rcases pt with e2 | p2 <;> dsimp only <;>
    (repeat' split) <;> exact ⟨rfl, rfl⟩

lemma parse_allen_const (pg : Except Unit Page) (code : String) :
    (parse_allen pg code).brand = "Allen Bradley (Rockwell Automation)" ∧
      (parse_allen pg code).code = code := by
  unfold parse_allen
  rcases pg with e | p <;> dsimp only <;> (repeat' split) <;> exact ⟨rfl, rfl⟩

lemma parse_eaton_const (pg : Except Unit Page) (code : String) :
    (parse_eaton pg code).brand = "Eaton" ∧
      (parse_eaton pg code).code = code := by
  unfold parse_eaton
  rcases pg with e | p <;> dsimp only <;> (repeat' split) <;> exact ⟨rfl, rfl⟩

lemma parse_legrand_const (pg : Except Unit Page) (code : String) :
    (parse_legrand pg code).brand = "Legrand" ∧
      (parse_legrand pg code).code = code := by
  unfold parse_legrand
  rcases pg with e | p <;> dsimp only <;> (repeat' split) <;> exact ⟨rfl, rfl⟩

lemma parse_wago_const (pg : Except Unit Page) (code : String) :
    (parse_wago pg code).brand = "Wago" ∧
      (parse_wago pg code).code = code := by
  unfold parse_wago
  rcases pg with e | p <;> dsimp only <;> (repeat' split) <;> exact ⟨rfl, rfl⟩

lemma parse_siemens_const (pg : Except Unit Page) (code : String) :
    (parse_siemens pg code).brand = "Siemens" ∧
      (parse_siemens pg code).code = code := by
  unfold parse_siemens
  rcases pg with e | p <;> dsimp only <;> (repeat' split) <;> exact ⟨rfl, rfl⟩

lemma parse_schneider_name_tr (pe pt : Except Unit Page) (code : String) :
    (parse_schneider pe pt code).name_tr.isSome = true := by
  unfold parse_schneider
  rcases pe with e | p <;> rcases pt with e2 | p2 <;> dsimp only <;>
    (repeat' split) <;> rfl

lemma parse_legrand_names (pg : Except Unit Page) (code : String) :
    (parse_legrand pg code).name_en = none ∧
      (parse_legrand pg code).name_tr = none ∧
      (parse_legrand pg code).name_de.isSome = true := by
  unfold parse_legrand
  rcases pg with e | p <;> dsimp only <;> (repeat' split) <;>
    exact ⟨rfl, rfl, rfl⟩

lemma parse_allen_name_tr (pg : Except Unit Page) (code : String) :
    (parse_allen pg code).name_tr = none := by
  unfold parse_allen
  rcases pg with e | p <;> (dsimp only; (repeat' split)) <;> rfl

lemma parse_siemens_name_tr (pg : Except Unit Page) (code : String) :
    (parse_siemens pg code).name_tr = none := by
  unfold parse_siemens
  rcases pg with e | p <;> (dsimp only; (repeat' split)) <;> rfl

lemma parse_schneider_images (p : Page) (pt : Except Unit Page)
    (code : String) :
    (parse_schneider (Except.ok p) pt code).images =
      p.imgSrcs.foldl schneiderImgStep [] := by
  unfold parse_schneider
  rcases pt with e2 | p2 <;> dsimp only <;> (repeat' split) <;> rfl

lemma parse_abb_images (p : Page) (pt : Except Unit Page) (code : String) :
    (parse_abb (Except.ok p) pt code).images =
      p.imgSrcs.foldl (genericImgStep "https://new.abb.com"
        (fun src => pyIn (pyLower code) (pyLower src))) [] := by
  unfold parse_abb
  rcases pt with e2 | p2 <;> dsimp only <;> (repeat' split) <;> rfl

lemma parse_allen_images (p : Page) (code : String) :
    (parse_allen (Except.ok p) code).images =
      p.imgSrcs.foldl (genericImgStep "https://www.rockwellautomation.com"
        (fun src => pyIn code src)) [] := by
  unfold parse_allen
  dsimp only
  (repeat' split) <;> rfl

lemma parse_eaton_images (p : Page) (code : String) :
    (parse_eaton (Except.ok p) code).images =
      p.imgSrcs.foldl (genericImgStep "https://www.eaton.com"
        (fun src => pyIn (pyLower code) (pyLower src))) [] := by
  unfold parse_eaton
  dsimp only
  (repeat' split) <;> rfl

lemma parse_legrand_images (p : Page) (code : String) :
    (parse_legrand (Except.ok p) code).images =
      p.imgSrcs.foldl (genericImgStep "https://www.legrand.at"
        (fun src => pyIn "030191" src)) [] := by
  unfold parse_legrand
  dsimp only
  (repeat' split) <;> rfl

lemma parse_wago_images (p : Page) (code : String) :
    (parse_wago (Except.ok p) code).images =
      p.imgSrcs.foldl (genericImgStep "https://www.wago.com"
        (fun src => pyIn code src)) [] := by
  unfold parse_wago
  dsimp only
  (repeat' split) <;> rfl

lemma parse_siemens_images (p : Page) (code : String) :
    (parse_siemens (Except.ok p) code).images =
      p.imgSrcs.foldl (genericImgStep "https://mall.industry.siemens.com"
        (fun src => pyIn (pyLower code) (pyLower src))) [] := by
  unfold parse_siemens
  dsimp only
  (repeat' split) <;> rfl

-- ------------------------------------------------------------------
-- Claim theorems.
-- ------------------------------------------------------------------

/-- C1, corrected.  A row is skipped if and only if its trimmed brand
resolves to no extraction strategy (in particular when the brand is
empty); a skipped row contributes no table rows and no files, and the
loop continues, each output entry being the image of its own row under
processRow.  The original claim fails because a row with a recognized
brand but an empty product code, or with a fully empty extraction
result, is still processed: scrape_by_brand only returns None on an
unrecognized brand, and the resulting non-empty dict is always truthy.
See the counterexample. -/
theorem c1_row_skip :
    (∀ (o : RowOracle) (root : String) (raw : RawRow),
      processRow o root raw = none ↔
        resolveStrategy (pyStrip raw.brand) = none) ∧
    resolveStrategy "" = none ∧
    (∀ (u : UploadedFile) (o : Nat → RowOracle) (t : String),
      u.parses = true →
      (u.rows.isEmpty = true ∨ (u.hasBrandCol && u.hasCodeCol) = true) →
      enRowsOf (process_products u o t) =
        (u.rows.enum).filterMap (fun p =>
          (processRow (o p.1) ("Research-" ++ t) p.2).map (fun r => r.en)) ∧
      trRowsOf (process_products u o t) =
        (u.rows.enum).filterMap (fun p =>
          (processRow (o p.1) ("Research-" ++ t) p.2).map (fun r => r.tr))) := by
  refine ⟨processRow_none_iff, by decide, ?_⟩
  intro u o t h1 h2
  have hl := loop_tables o ("Research-" ++ t) (u.rows.enum)
    { en_rows := [], tr_rows := [],
      fs := [(["Research-" ++ t, "uploaded.xlsx"], FileData.uploadedCopy u)] }
  constructor
  · rw [process_en_rows_eq u o t h1 h2, hl.1]; simp
  · rw [process_tr_rows_eq u o t h1 h2, hl.2]; simp

/-- Witness for C1 on a one-row upload whose brand resolves but whose
code is empty. -/
theorem c1_row_skip_witness :
    uploadEmptyCode.parses = true ∧
    (uploadEmptyCode.rows.isEmpty = true ∨
      (uploadEmptyCode.hasBrandCol && uploadEmptyCode.hasCodeCol) = true) ∧
    enRowsOf (process_products uploadEmptyCode (fun _ => oracleFail) "T") =
      (uploadEmptyCode.rows.enum).filterMap (fun p =>
        (processRow ((fun _ : Nat => oracleFail) p.1) ("Research-" ++ "T")
          p.2).map (fun r => r.en)) :=
  ⟨by decide, by decide,
    (c1_row_skip.2.2 uploadEmptyCode (fun _ => oracleFail) "T"
      (by decide) (by decide)).1⟩

/-- Counterexample to C1 as stated: a row whose brand is recognized
but whose product code is empty after trimming, and whose extraction
yields no data at all (every fetch fails), still appends a row to the
output tables and still writes breadcrumb files. -/
theorem c1_counterexample :
    (enRowsOf (process_products uploadEmptyCode
      (fun _ => oracleFail) "T")).length = 1 ∧
    (["Research-T", "Info", "en", "Breadcrumbs", "-breadcrumbs.txt"],
        FileData.text "") ∈
      filesOf (process_products uploadEmptyCode (fun _ => oracleFail) "T") := by
  decide

/-- C2, corrected.  When the upload cannot be parsed, or a required
column is missing and at least one row exists, the exception escapes
process_products unhandled (modelled by Except.error): there is no
try/except around pd.read_excel or the row accesses, and no structured
error response is ever built — the only structured response the
function constructs has status success.  See the counterexample. -/
theorem c2_input_errors (u : UploadedFile) (o : Nat → RowOracle)
    (t : String) :
    (u.parses = false → process_products u o t = Except.error ()) ∧
    (u.rows ≠ [] → (u.hasBrandCol && u.hasCodeCol) = false →
      process_products u o t = Except.error ()) ∧
    (isOkRun (process_products u o t) = true →
      statusOf (process_products u o t) = "success") := by
  refine ⟨?_, ?_, process_status_ok u o t⟩
  · intro h; unfold process_products; rw [if_pos h]
  · intro hr hc
    by_cases hp : u.parses = false
    · unfold process_products; rw [if_pos hp]
    · have hie : u.rows.isEmpty = false := by
        cases hu : u.rows with
        | nil => exact absurd hu hr
        | cons a l => rfl
      unfold process_products
      rw [if_neg hp, if_pos ⟨hie, hc⟩]

/-- Witness for C2 on an upload missing the product_code column. -/
theorem c2_input_errors_witness :
    uploadNoCodeCol.rows ≠ [] ∧
    (uploadNoCodeCol.hasBrandCol && uploadNoCodeCol.hasCodeCol) = false ∧
    process_products uploadNoCodeCol (fun _ => oracleFail) "T" =
      Except.error () :=
  ⟨by decide, by decide,
    (c2_input_errors uploadNoCodeCol (fun _ => oracleFail) "T").2.1
      (by decide) (by decide)⟩

/-- Counterexample to C2 as stated: on an unparseable upload the call
raises (Except.error models the uncaught exception surfacing to the
framework) instead of returning a structured error response. -/
theorem c2_counterexample :
    process_products uploadBad (fun _ => oracleFail) "T" =
      Except.error () := by decide

/-- C3, confirmed.  Every network or decode behaviour leaves the
download helpers returning a plain boolean (true exactly when the
fetch succeeded with status 200 and, for images, decoding succeeded),
every brand parser returns a record with its brand and code fields
populated, and under any oracle the run completes with each output row
the image of its own input row alone, so no per-row failure aborts the
run or disturbs other rows. -/
theorem c3_failure_isolation :
    (∀ f : ImgFetch, (download_image_to_webp f).1 = true ↔
      ∃ r i, f.resp = Except.ok r ∧ r.status_code = 200 ∧
        f.decoded = Except.ok i) ∧
    (∀ g : Except Unit HttpResp, (download_file g).1 = true ↔
      ∃ r, g = Except.ok r ∧ r.status_code = 200) ∧
    (∀ pe pt c, (parse_schneider pe pt c).brand = "Schneider Electric" ∧
      (parse_schneider pe pt c).code = c) ∧
    (∀ pe pt c, (parse_abb pe pt c).brand = "ABB Group" ∧
      (parse_abb pe pt c).code = c) ∧
    (∀ pg c, (parse_allen pg c).brand =
        "Allen Bradley (Rockwell Automation)" ∧
      (parse_allen pg c).code = c) ∧
    (∀ pg c, (parse_eaton pg c).brand = "Eaton" ∧
      (parse_eaton pg c).code = c) ∧
    (∀ pg c, (parse_legrand pg c).brand = "Legrand" ∧
      (parse_legrand pg c).code = c) ∧
    (∀ pg c, (parse_wago pg c).brand = "Wago" ∧
      (parse_wago pg c).code = c) ∧
    (∀ pg c, (parse_siemens pg c).brand = "Siemens" ∧
      (parse_siemens pg c).code = c) ∧
    (∀ (u : UploadedFile) (o : Nat → RowOracle) (t : String),
      u.parses = true →
      (u.rows.isEmpty = true ∨ (u.hasBrandCol && u.hasCodeCol) = true) →
      isOkRun (process_products u o t) = true ∧
      enRowsOf (process_products u o t) =
        (u.rows.enum).filterMap (fun p =>
          (processRow (o p.1) ("Research-" ++ t) p.2).map (fun r => r.en)) ∧
      trRowsOf (process_products u o t) =
        (u.rows.enum).filterMap (fun p =>
          (processRow (o p.1) ("Research-" ++ t) p.2).map (fun r => r.tr))) := by
  refine ⟨download_image_true_iff, download_file_true_iff,
    parse_schneider_const, parse_abb_const, parse_allen_const,
    parse_eaton_const, parse_legrand_const, parse_wago_const,
    parse_siemens_const, ?_⟩
  intro u o t h1 h2
  have hl := loop_tables o ("Research-" ++ t) (u.rows.enum)
    { en_rows := [], tr_rows := [],
      fs := [(["Research-" ++ t, "uploaded.xlsx"], FileData.uploadedCopy u)] }
  refine ⟨process_ok u o t h1 h2, ?_, ?_⟩
  · rw [process_en_rows_eq u o t h1 h2, hl.1]; simp
  · rw [process_tr_rows_eq u o t h1 h2, hl.2]; simp

/-- Witness for C3: a run over two rows under an all-failing oracle
still returns, with status success. -/
theorem c3_failure_isolation_witness :
    uploadTwoX1.parses = true ∧
    (uploadTwoX1.rows.isEmpty = true ∨
      (uploadTwoX1.hasBrandCol && uploadTwoX1.hasCodeCol) = true) ∧
    isOkRun (process_products uploadTwoX1 (fun _ => oracleFail) "T") = true :=
  ⟨by decide, by decide,
    (c3_failure_isolation.2.2.2.2.2.2.2.2.2 uploadTwoX1 (fun _ => oracleFail)
      "T" (by decide) (by decide)).1⟩

/-- C4, corrected.  The language fallback of the output-table cells is
key-level, not value-level: dict.get takes the fallback chain only
when the primary key is absent from the record (as with the parsers
that omit a language, such as Legrand, Allen Bradley or Siemens); a
key that is present with an empty value is written as the empty
string, with no fallback to a non-empty value in another language.
The Schneider parser always populates the name_tr key, so its TR cell
never falls back.  See the counterexample. -/
theorem c4_language_fallback :
    (∀ brand code d v, d.name_tr = some v →
      (trRowOf brand code d).urunAdi = v) ∧
    (∀ brand code d, d.name_tr = none →
      (trRowOf brand code d).urunAdi =
        d.name_en.getD (d.name_de.getD "")) ∧
    (∀ brand code d v, d.category_tr = some v →
      (trRowOf brand code d).kategori = v) ∧
    (∀ brand code d, d.category_tr = none →
      (trRowOf brand code d).kategori =
        d.category_en.getD (d.category_de.getD "")) ∧
    (∀ brand code d v, d.name_en = some v →
      (enRowOf brand code d).productName = v) ∧
    (∀ brand code d, d.name_en = none →
      (enRowOf brand code d).productName = d.name_de.getD "") ∧
    (∀ brand code d v, d.category_en = some v →
      (enRowOf brand code d).category = v) ∧
    (∀ brand code d, d.category_en = none →
      (enRowOf brand code d).category = d.category_de.getD "") ∧
    (∀ pe pt c, (parse_schneider pe pt c).name_tr.isSome = true) ∧
    (∀ pg c, (parse_legrand pg c).name_en = none ∧
      (parse_legrand pg c).name_tr = none ∧
      (parse_legrand pg c).name_de.isSome = true) ∧
    (∀ pg c, (parse_allen pg c).name_tr = none) ∧
    (∀ pg c, (parse_siemens pg c).name_tr = none) := by
  refine ⟨?_, ?_, ?_, ?_, ?_, ?_, ?_, ?_, parse_schneider_name_tr,
      parse_legrand_names, parse_allen_name_tr, parse_siemens_name_tr⟩ <;>
    intro brand code d
  · intro v h; unfold trRowOf; rw [h]; rfl
  · intro h; unfold trRowOf; rw [h]; rfl
  · intro v h; unfold trRowOf; rw [h]; rfl
  · intro h; unfold trRowOf; rw [h]; rfl
  · intro v h; unfold enRowOf; rw [h]; rfl
  · intro h; unfold enRowOf; rw [h]; rfl
  · intro v h; unfold enRowOf; rw [h]; rfl
  · intro h; unfold enRowOf; rw [h]; rfl

/-- Witness for C4: a present name_tr key is written verbatim. -/
theorem c4_language_fallback_witness :
    recNameTr.name_tr = some "W" ∧
    (trRowOf "B" "C" recNameTr).urunAdi = "W" :=
  ⟨by decide, c4_language_fallback.1 "B" "C" recNameTr "W" (by decide)⟩

/-- Counterexample to C4 as stated: a Schneider row whose TR fetch
failed has an empty name in the TR record (the primary language of the
TR table) and the non-empty EN name "Widget", yet the cell written to
the TR table is the empty string, not the EN fallback. -/
theorem c4_counterexample :
    (parse_schneider (Except.ok pageName) (Except.error ()) "K").name_tr =
      some "" ∧
    (parse_schneider (Except.ok pageName) (Except.error ()) "K").name_en =
      some "Widget" ∧
    (trRowsOf (process_products uploadSchneiderK
      (fun _ => oracleName) "T")).map (fun r => r.urunAdi) = [""] := by
  decide

lemma pair_mem_keys (fs : List (List String × FileData)) (p : List String)
    (d : FileData) (h : (p, d) ∈ fs) : p ∈ fs.map (fun e => e.1) :=
  List.mem_map.mpr ⟨(p, d), h, rfl⟩

/-- C5, corrected.  The EN and TR output spreadsheets are written if
and only if their accumulator is non-empty: when no row qualified the
files are omitted entirely, rather than written as empty tables with
headers as the claim states.  See the counterexample. -/
theorem c5_tables_conditional (u : UploadedFile) (o : Nat → RowOracle)
    (t : String) (h1 : u.parses = true)
    (h2 : u.rows.isEmpty = true ∨ (u.hasBrandCol && u.hasCodeCol) = true) :
    ((["Research-" ++ t, "Info", "en", "products-info.xlsx"] ∈
        (filesOf (process_products u o t)).map (fun e => e.1)) ↔
      enRowsOf (process_products u o t) ≠ []) ∧
    ((["Research-" ++ t, "Info", "tr", "urun-detaylari.xlsx"] ∈
        (filesOf (process_products u o t)).map (fun e => e.1)) ↔
      trRowsOf (process_products u o t) ≠ []) := by
  have hfe := process_files_eq u o t h1 h2
  have hen := process_en_rows_eq u o t h1 h2
  have htr := process_tr_rows_eq u o t h1 h2
  set root := "Research-" ++ t with hroot
  set st := (u.rows.enum).foldl (rowStep o root)
    { en_rows := [], tr_rows := [],
      fs := [([root, "uploaded.xlsx"], FileData.uploadedCopy u)] } with hst
  dsimp only at hfe
  rw [hen, htr]
  have hkey : ∀ q : List String, q ∈ st.fs.map (fun e => e.1) →
      q ∈ [[root, "uploaded.xlsx"]] ∨
        ∃ p ∈ u.rows.enum,
          ∃ e ∈ rowFilesOf (processRow (o p.1) root p.2), e.1 = q := by
    intro q hq
    rw [hst] at hq
    rcases loop_keys_sub o root (u.rows.enum) _ q hq with h | h
    · left; simpa using h
    · right; exact h
  have henNot : ¬([root, "Info", "en", "products-info.xlsx"] ∈
      st.fs.map (fun e => e.1)) := by
    intro hmem
    rcases hkey _ hmem with h | ⟨p, hp, e, he, heq⟩
    · simp at h
    · exact (rowPathOK_ne_tables root _ _ e.1
        (processRow_paths (o p.1) root p.2 e he)).1 heq
  have htrNot : ¬([root, "Info", "tr", "urun-detaylari.xlsx"] ∈
      st.fs.map (fun e => e.1)) := by
    intro hmem
    rcases hkey _ hmem with h | ⟨p, hp, e, he, heq⟩
    · simp at h
    · exact (rowPathOK_ne_tables root _ _ e.1
        (processRow_paths (o p.1) root p.2 e he)).2 heq
  have hneEnTr : ([root, "Info", "en", "products-info.xlsx"] :
      List String) ≠ [root, "Info", "tr", "urun-detaylari.xlsx"] := by
    intro hEq; simp at hEq
  rw [hfe]
  cases hE : st.en_rows.isEmpty with
  | true =>
    have hEnil : st.en_rows = [] := List.isEmpty_iff.mp hE
    cases hT : st.tr_rows.isEmpty with
    | true =>
      have hTnil : st.tr_rows = [] := List.isEmpty_iff.mp hT
      constructor
      · constructor
        · intro hmem; exact absurd hmem henNot
        · intro hne; exact absurd hEnil hne
      · constructor
        · intro hmem; exact absurd hmem htrNot
        · intro hne; exact absurd hTnil hne
    | false =>
      have hTne : st.tr_rows ≠ [] := by
        intro hnil; rw [hnil] at hT; simp at hT
      constructor
      · constructor
        · intro hmem
          rcases fsWrite_keys_sub st.fs _ _ _ hmem with h | h
          · exact absurd h henNot
          · exact absurd h hneEnTr
        · intro hne; exact absurd hEnil hne
      · constructor
        · intro _; exact hTne
        · intro _
          exact pair_mem_keys _ _ _ (fsWrite_self_mem st.fs _ _)
  | false =>
    have hEne : st.en_rows ≠ [] := by
      intro hnil; rw [hnil] at hE; simp at hE
    cases hT : st.tr_rows.isEmpty with
    | true =>
      have hTnil : st.tr_rows = [] := List.isEmpty_iff.mp hT
      constructor
      · constructor
        · intro _; exact hEne
        · intro _
          exact pair_mem_keys _ _ _ (fsWrite_self_mem st.fs _ _)
      · constructor
        · intro hmem
          rcases fsWrite_keys_sub st.fs _ _ _ hmem with h | h
          · exact absurd h htrNot
          · exact absurd h.symm hneEnTr
        · intro hne; exact absurd hTnil hne
    | false =>
      have hTne : st.tr_rows ≠ [] := by
        intro hnil; rw [hnil] at hT; simp at hT
      constructor
      · constructor
        · intro _; exact hEne
        · intro _
          exact fsWrite_keys_mono _ _ _ _
            (pair_mem_keys _ _ _ (fsWrite_self_mem st.fs _ _))
      · constructor
        · intro _; exact hTne
        · intro _
          exact pair_mem_keys _ _ _ (fsWrite_self_mem _ _ _)

/-- Witness for C5: with one qualifying Schneider row the EN table
file is present, equivalently the EN accumulator is non-empty. -/
theorem c5_tables_conditional_witness :
    uploadSchneiderK.parses = true ∧
    (uploadSchneiderK.rows.isEmpty = true ∨
      (uploadSchneiderK.hasBrandCol && uploadSchneiderK.hasCodeCol) = true) ∧
    ((["Research-" ++ "T", "Info", "en", "products-info.xlsx"] ∈
        (filesOf (process_products uploadSchneiderK
          (fun _ => oracleFail) "T")).map (fun e => e.1)) ↔
      enRowsOf (process_products uploadSchneiderK
        (fun _ => oracleFail) "T") ≠ []) :=
  ⟨by decide, by decide,
    (c5_tables_conditional uploadSchneiderK (fun _ => oracleFail) "T"
      (by decide) (by decide)).1⟩

/-- Counterexample to C5 as stated: a run in which no row qualified
returns success but writes neither output table file, instead of
writing empty tables with headers. -/
theorem c5_counterexample :
    statusOf (process_products uploadUnknown (fun _ => oracleFail) "T") =
      "success" ∧
    enRowsOf (process_products uploadUnknown (fun _ => oracleFail) "T") =
      [] ∧
    ¬(["Research-T", "Info", "en", "products-info.xlsx"] ∈
      (filesOf (process_products uploadUnknown
        (fun _ => oracleFail) "T")).map (fun e => e.1)) ∧
    ¬(["Research-T", "Info", "tr", "urun-detaylari.xlsx"] ∈
      (filesOf (process_products uploadUnknown
        (fun _ => oracleFail) "T")).map (fun e => e.1)) := by
  decide

/-- C6, confirmed.  In the per-product image loop the number of files
saved equals the number of successful downloads, and the k-th saved
file (0-indexed) carries the zero-padded sequence suffix k+1, so the
suffix of every saved file equals the count of successful saves up to
and including it, with no gaps from failed attempts. -/
theorem c6_image_suffix (img : String → ImgFetch) (root brand code : String)
    (urls : List String) :
    (imageLoop img root brand code urls 1).length =
      (urls.filter (fun u => (download_image_to_webp (img u)).1)).length ∧
    ∀ k, k < (imageLoop img root brand code urls 1).length →
      ((imageLoop img root brand code urls 1).map (fun e => e.1))[k]? =
        some [root, "Images", code, imgFileName brand code (k + 1)] := by
  constructor
  · exact imageLoop_length img root brand code urls 1
  · intro k hk
    have h := imageLoop_getElem img root brand code urls 1 k hk
    rw [show 1 + k = k + 1 from by omega] at h
    exact h

/-- Witness for C6: with the second of three URLs failing, the second
saved file carries suffix 002 (wired to the surviving third URL). -/
theorem c6_image_suffix_witness :
    1 < (imageLoop imgOracle231 "R" "br" "CD" ["u1", "u2", "u3"] 1).length ∧
    ((imageLoop imgOracle231 "R" "br" "CD" ["u1", "u2", "u3"] 1).map
        (fun e => e.1))[1]? =
      some ["R", "Images", "CD", imgFileName "br" "CD" 2] :=
  ⟨by decide,
    (c6_image_suffix imgOracle231 "R" "br" "CD" ["u1", "u2", "u3"]).2 1
      (by decide)⟩

/-- C8, corrected.  Every URL a parser appends for an image src that
passed its filter is the src itself when it does not start with a
slash (so relative srcs are appended unrewritten, not made absolute),
and the brand origin prefixed to the src when it does.  Only the
Schneider parser first rewrites a protocol-relative src with the
scheme; in every other parser a src starting with a double slash falls
into the single-slash case and has the origin prefixed to it, yielding
origin-plus-double-slash URLs rather than scheme-prefixed ones.  See
the counterexample. -/
theorem c8_image_url_rewrite :
    (∀ p pt c u, u ∈ (parse_schneider (Except.ok p) pt c).images →
      ∃ s, (some s) ∈ p.imgSrcs ∧ s ≠ "" ∧ pyIn "/product/" s = true ∧
        u = (let s1 := if pyStartsWith s "//" then "https:" ++ s else s
             if pyStartsWith s1 "/" then "https://www.se.com" ++ s1
             else s1)) ∧
    (∀ p pt c u, u ∈ (parse_abb (Except.ok p) pt c).images →
      ∃ s, (some s) ∈ p.imgSrcs ∧ s ≠ "" ∧
        pyIn (pyLower c) (pyLower s) = true ∧
        u = (if pyStartsWith s "/" then "https://new.abb.com" ++ s else s)) ∧
    (∀ p c u, u ∈ (parse_allen (Except.ok p) c).images →
      ∃ s, (some s) ∈ p.imgSrcs ∧ s ≠ "" ∧ pyIn c s = true ∧
        u = (if pyStartsWith s "/" then
          "https://www.rockwellautomation.com" ++ s else s)) ∧
    (∀ p c u, u ∈ (parse_eaton (Except.ok p) c).images →
      ∃ s, (some s) ∈ p.imgSrcs ∧ s ≠ "" ∧
        pyIn (pyLower c) (pyLower s) = true ∧
        u = (if pyStartsWith s "/" then "https://www.eaton.com" ++ s
          else s)) ∧
    (∀ p c u, u ∈ (parse_legrand (Except.ok p) c).images →
      ∃ s, (some s) ∈ p.imgSrcs ∧ s ≠ "" ∧ pyIn "030191" s = true ∧
        u = (if pyStartsWith s "/" then "https://www.legrand.at" ++ s
          else s)) ∧
    (∀ p c u, u ∈ (parse_wago (Except.ok p) c).images →
      ∃ s, (some s) ∈ p.imgSrcs ∧ s ≠ "" ∧ pyIn c s = true ∧
        u = (if pyStartsWith s "/" then "https://www.wago.com" ++ s
          else s)) ∧
    (∀ p c u, u ∈ (parse_siemens (Except.ok p) c).images →
      ∃ s, (some s) ∈ p.imgSrcs ∧ s ≠ "" ∧
        pyIn (pyLower c) (pyLower s) = true ∧
        u = (if pyStartsWith s "/" then
          "https://mall.industry.siemens.com" ++ s else s)) := by
  refine ⟨?_, ?_, ?_, ?_, ?_, ?_, ?_⟩
  · intro p pt c u h
    rw [parse_schneider_images] at h
    rcases schneiderFold_mem p.imgSrcs [] u h with h | h
    · simp at h
    · exact h
  · intro p pt c u h
    rw [parse_abb_images] at h
    rcases genericFold_mem _ _ p.imgSrcs [] u h with h | h
    · simp at h
    · exact h
  · intro p c u h
    rw [parse_allen_images] at h
    rcases genericFold_mem _ _ p.imgSrcs [] u h with h | h
    · simp at h
    · exact h
  · intro p c u h
    rw [parse_eaton_images] at h
    rcases genericFold_mem _ _ p.imgSrcs [] u h with h | h
    · simp at h
    · exact h
  · intro p c u h
    rw [parse_legrand_images] at h
    rcases genericFold_mem _ _ p.imgSrcs [] u h with h | h
    · simp at h
    · exact h
  · intro p c u h
    rw [parse_wago_images] at h
    rcases genericFold_mem _ _ p.imgSrcs [] u h with h | h
    · simp at h
    · exact h
  · intro p c u h
    rw [parse_siemens_images] at h
    rcases genericFold_mem _ _ p.imgSrcs [] u h with h | h
    · simp at h
    · exact h

/-- Witness for C8: the ABB parser appends the origin-prefixed form of
a src passing its filter. -/
theorem c8_image_url_rewrite_witness :
    ("https://new.abb.com//cdn.example/ab.png" ∈
      (parse_abb (Except.ok pageProtoRel) (Except.error ()) "AB").images) ∧
    (∃ s, (some s) ∈ pageProtoRel.imgSrcs ∧ s ≠ "" ∧
      pyIn (pyLower "AB") (pyLower s) = true ∧
      "https://new.abb.com//cdn.example/ab.png" =
        (if pyStartsWith s "/" then "https://new.abb.com" ++ s else s)) :=
  ⟨by decide,
    c8_image_url_rewrite.2.1 pageProtoRel (Except.error ()) "AB"
      "https://new.abb.com//cdn.example/ab.png" (by decide)⟩

/-- Counterexample to C8 as stated: a protocol-relative src accepted
by the ABB filter is not rewritten by prefixing the scheme; the origin
is prefixed to it instead, leaving a double slash after the host. -/
theorem c8_counterexample :
    (parse_abb (Except.ok pageProtoRel) (Except.error ()) "AB").images =
      ["https://new.abb.com//cdn.example/ab.png"] ∧
    pyStartsWith "//cdn.example/ab.png" "//" = true ∧
    "https://new.abb.com//cdn.example/ab.png" ≠
      "https:" ++ "//cdn.example/ab.png" := by
  decide

/-- C9, confirmed.  The archive is named after the run root folder,
and an entry (q, d) lies in the archive exactly when the file at path
root/q with data d lies on disk at archiving time, so unpacking the
archive reproduces precisely the relative file set and contents under
the run root (the archive itself is stored beside the root, never
inside it). -/
theorem c9_zip_roundtrip (u : UploadedFile) (o : Nat → RowOracle)
    (t : String) (h1 : u.parses = true)
    (h2 : u.rows.isEmpty = true ∨ (u.hasBrandCol && u.hasCodeCol) = true) :
    zipPathOf (process_products u o t) = ["Research-" ++ t ++ ".zip"] ∧
    zipFileOf (process_products u o t) = "Research-" ++ t ++ ".zip" ∧
    ∀ (q : List String) (d : FileData),
      (q, d) ∈ zipEntriesOf (process_products u o t) ↔
        (("Research-" ++ t) :: q, d) ∈ filesOf (process_products u o t) := by
  refine ⟨(process_zip_path u o t h1 h2).1, (process_zip_path u o t h1 h2).2,
    ?_⟩
  intro q d
  rw [process_zip_entries u o t h1 h2]
  exact relUnder_mem _ _ q d

/-- Witness for C9: the audit copy of the upload appears in the
archive under its relative path exactly as it appears on disk under
the run root. -/
theorem c9_zip_roundtrip_witness :
    uploadSchneiderK.parses = true ∧
    zipPathOf (process_products uploadSchneiderK (fun _ => oracleFail) "T") =
      ["Research-" ++ "T" ++ ".zip"] ∧
    ((["uploaded.xlsx"], FileData.uploadedCopy uploadSchneiderK) ∈
        zipEntriesOf (process_products uploadSchneiderK
          (fun _ => oracleFail) "T") ↔
      (("Research-" ++ "T") :: ["uploaded.xlsx"],
          FileData.uploadedCopy uploadSchneiderK) ∈
        filesOf (process_products uploadSchneiderK
          (fun _ => oracleFail) "T")) :=
  ⟨by decide,
    (c9_zip_roundtrip uploadSchneiderK (fun _ => oracleFail) "T"
      (by decide) (by decide)).1,
    (c9_zip_roundtrip uploadSchneiderK (fun _ => oracleFail) "T"
      (by decide) (by decide)).2.2 ["uploaded.xlsx"]
      (FileData.uploadedCopy uploadSchneiderK)⟩

/-- C10, corrected.  Every path a row writes is one of five shapes
determined only by the run root, the trimmed brand string and the
upper-cased trimmed product code — never by the row position; a write
to an existing path overwrites it in place; and every row whose brand
resolves contributes exactly one entry to each output table, so rows
sharing a code appear as separate table entries.  The original claim
fails because the image filenames embed the slugified brand string:
two rows with the same code but differently spelled brands write their
images to different paths and do not overwrite each other.  See the
counterexample. -/
theorem c10_row_file_paths :
    (∀ (o : RowOracle) (root : String) (raw : RawRow),
      ∀ e ∈ rowFilesOf (processRow o root raw),
        rowPathOK root (pyStrip raw.brand)
          (pyUpper (pyStrip raw.product_code)) e.1) ∧
    (∀ (fs : List (List String × FileData)) (p : List String) (d : FileData),
      p ∈ fs.map (fun e => e.1) →
        (fsWrite fs p d).map (fun e => e.1) = fs.map (fun e => e.1) ∧
          (p, d) ∈ fsWrite fs p d) ∧
    (∀ (u : UploadedFile) (o : Nat → RowOracle) (t : String),
      u.parses = true →
      (u.rows.isEmpty = true ∨ (u.hasBrandCol && u.hasCodeCol) = true) →
      (enRowsOf (process_products u o t)).length =
        (u.rows.filter (fun r =>
          (resolveStrategy (pyStrip r.brand)).isSome)).length) := by
  refine ⟨processRow_paths, ?_, ?_⟩
  · intro fs p d h
    exact ⟨fsWrite_keys_overwrite fs p d h, fsWrite_self_mem fs p d⟩
  · intro u o t h1 h2
    have hl := loop_tables o ("Research-" ++ t) (u.rows.enum)
      { en_rows := [], tr_rows := [],
        fs := [(["Research-" ++ t, "uploaded.xlsx"],
          FileData.uploadedCopy u)] }
    rw [process_en_rows_eq u o t h1 h2, hl.1]
    simp only [List.nil_append]
    have hfg : ∀ (n : Nat) (r : RawRow),
        ((processRow (o n) ("Research-" ++ t) r).map
          (fun x => x.en)).isSome =
          (resolveStrategy (pyStrip r.brand)).isSome := by
      intro n r
      cases hp : processRow (o n) ("Research-" ++ t) r with
      | none =>
        rw [(processRow_none_iff (o n) ("Research-" ++ t) r).mp hp]
        rfl
      | some rr =>
        cases hres : resolveStrategy (pyStrip r.brand) with
        | none =>
          have := (processRow_none_iff (o n) ("Research-" ++ t) r).mpr hres
          rw [hp] at this
          cases this
        | some s => rfl
    have := enum_filterMap_length
      (fun n r => (processRow (o n) ("Research-" ++ t) r).map (fun x => x.en))
      (fun r => (resolveStrategy (pyStrip r.brand)).isSome) hfg u.rows 0
    simpa [List.enum] using this

/-- Witness for C10: the single image file of an ABB row lies at a
path of the admissible brand-and-code-determined shape. -/
theorem c10_row_file_paths_witness :
    ((["Research-T", "Images", "X1", "abb-x1-001.webp"],
        FileData.webp { mode := "RGB", pixels := [7] }) ∈
      rowFilesOf (processRow oracleRelImg "Research-T"
        { brand := "ABB", product_code := "X1" })) ∧
    rowPathOK "Research-T" (pyStrip "ABB") (pyUpper (pyStrip "X1"))
      (["Research-T", "Images", "X1", "abb-x1-001.webp"],
        FileData.webp { mode := "RGB", pixels := [7] }).1 :=
  ⟨by decide,
    c10_row_file_paths.1 oracleRelImg "Research-T"
      { brand := "ABB", product_code := "X1" }
      (["Research-T", "Images", "X1", "abb-x1-001.webp"],
        FileData.webp { mode := "RGB", pixels := [7] }) (by decide)⟩

/-- Counterexample to C10 as stated: two rows with the same product
code X1 and brands ABB and abb group both resolve, both appear in the
output tables, but the second row writes its image to a different path
and the first row's image file survives in the final tree, so the
later row's files are not written to the same paths. -/
theorem c10_counterexample :
    (["Research-T", "Images", "X1", "abb-x1-001.webp"] ∈
      (filesOf (process_products uploadTwoX1
        (fun _ => oracleRelImg) "T")).map (fun e => e.1)) ∧
    (["Research-T", "Images", "X1", "abb-group-x1-001.webp"] ∈
      (filesOf (process_products uploadTwoX1
        (fun _ => oracleRelImg) "T")).map (fun e => e.1)) ∧
    (enRowsOf (process_products uploadTwoX1
      (fun _ => oracleRelImg) "T")).length = 2 := by
  decide
